import Mathlib

/-!
Demand paging and heap swapping of `kernel/pfault.c`

A shallow embedding of `evict_page_to_disk`, `retrieve_page_from_disk` and
`page_fault_handler`, followed by the properties established about them.

Conventions of the embedding.

* `uint64` values are natural numbers. The sums the program-header loop forms
  from fields of the executable image (`ph.vaddr + ph.memsz`,
  `faulting_addr + ph.memsz`, `ph.off + seg_offset`) are reduced modulo `2^64`,
  and the offset passed to the `uint` parameter of `loadseg` is reduced modulo
  `2^32`. Heap addresses are user addresses, far below `2^64 - PGSIZE`, and
  `faulting_addr + PGSIZE` is taken as it stands.
* `int` values that may hold the sentinel `-1` (`startblock`, `oldest_idx`,
  `page_idx`, `heap_idx`) are integers.
* `panic` never returns: an execution that reaches it ends in
  `Outcome.panicked`, which records the message and the state at that point.
* An array index outside `heap_tracker` is undefined behaviour in C and ends
  in `Outcome.undefined`.
* The diagnostic `print_*` calls and `sfence_vma` have no effect on the state
  modelled here and are left out.
-/

namespace Pfault

/-- Modelled from the spec: `PGSIZE` of `riscv.h`, which is not among the
sources; a virtual page has 4096 bytes. -/
def PGSIZE : Nat := 4096

/-- Modelled from the spec: `BSIZE` of `fs.h`, which is not among the sources;
"block size is fixed and smaller than a virtual page (4 blocks = 1 page)". -/
def BSIZE : Nat := 1024

/-- Modelled from the spec: the macro `PGROUNDDOWN(a) = (a) & ~(PGSIZE-1)` of
`riscv.h`; for the power of two `PGSIZE` this clears the offset inside the page. -/
def PGROUNDDOWN (a : Nat) : Nat := a - a % PGSIZE

/-- The initial value `0xFFFFFFFFFFFFFFFF` of `oldest_time`. -/
def UINT64_MAX : Nat := 0xFFFFFFFFFFFFFFFF

/-- One element of `p->heap_tracker` (the struct is declared in `proc.h`; the
fields are the ones `pfault.c` uses). -/
structure heap_tracker_t where
  addr : Nat
  last_load_time : Nat
  startblock : Int
  loaded : Bool
deriving DecidableEq

/-- The fields of `struct elfhdr` that `page_fault_handler` reads. -/
structure elfhdr where
  magic : Nat
  phoff : Nat
  phnum : Nat

/-- The fields of `struct proghdr` that `page_fault_handler` reads. -/
structure proghdr where
  type : Nat
  flags : Nat
  off : Nat
  vaddr : Nat
  memsz : Nat

/-- The contents of a byte buffer (a page or a disk block), by offset. -/
abbrev Bytes := Nat → Nat

/-- The user pages of `p->pagetable`, by page-aligned virtual address. -/
abbrev pagetable_t := Nat → Option Bytes

/-- The executable image that `namei(p->name)` resolves to, as seen through
`readi`: `elf` is the result of reading `sizeof(elf)` bytes at offset 0 and
`ph i` the result of the `i`-th program-header read, at offset
`elf.phoff + i * sizeof(ph)`; `none` is a short read. -/
structure inode where
  elf : Option elfhdr
  ph : Nat → Option proghdr
  data : Bytes

/-- Constants of `param.h` and `elf.h`, which are not among the sources. -/
structure Param where
  MAXRESHEAP : Nat
  PSASTART : Nat
  PSAEND : Nat
  ELF_MAGIC : Nat
  ELF_PROG_LOAD : Nat

/-- What the collaborators outside `pfault.c` answer during one call:
the tick counter read by `read_current_timestamp`, the inode found by `namei`,
the contents of a page handed out by `kalloc`, and whether `uvmalloc` and
`loadseg` succeed for given arguments. -/
structure World where
  ticks : Nat
  namei : Option inode
  kalloc : Bytes
  uvmalloc_ok : Nat → Nat → Bool
  loadseg_ok : Nat → Nat → Nat → Bool

/-- The state `pfault.c` works on: the global `psa_tracker`, the disk, the
fields of the current `struct proc`, and the list of `loadseg` calls issued so
far as `(va, offset, sz)`. `psa_tracker` is a map from index to flag; the
length `PSASIZE` of the C array is not modelled. -/
structure State where
  psa_tracker : Nat → Bool
  disk : Int → Bytes
  heap_tracker : List heap_tracker_t
  resident_heap_pages : Int
  pagetable : pagetable_t
  loadseg_calls : List (Nat × Nat × Nat)

/-- How a call ends. -/
inductive Outcome where
  | returned (s : State)
  | panicked (msg : String) (s : State)
  | undefined
  | out_of_fuel

/-- Sequencing: continue only after a normal return. -/
def Outcome.bind (o : Outcome) (f : State → Outcome) : Outcome :=
  match o with
  | .returned s => f s
  | .panicked msg s => .panicked msg s
  | .undefined => .undefined
  | .out_of_fuel => .out_of_fuel

/-- `init_psa_regions`: every entry of `psa_tracker` becomes `false`. -/
def init_psa_regions (s : State) : State :=
  { s with psa_tracker := fun _ => false }

/-! ## External interfaces -/

/-- Modelled from the spec: `uvmalloc` of `vm.c`, "map-range(pagetable,
vaddrStart, vaddrEnd, permissionBits) → new zero-filled mapping"; the failure
case is decided by `World.uvmalloc_ok`. Permission bits are not modelled. -/
def uvmalloc (pt : pagetable_t) (oldsz newsz : Nat) : pagetable_t :=
  fun a => if oldsz ≤ a ∧ a < newsz ∧ (a - oldsz) % PGSIZE = 0 then some (fun _ => 0) else pt a

/-- Modelled from the spec: `uvmunmap(pagetable, va, 1, 1)` of `vm.c`,
"unmap-range(pagetable, vaddr, pageCount, freePhysical)" for one page. -/
def uvmunmap (pt : pagetable_t) (va : Nat) : pagetable_t :=
  fun a => if a = va then none else pt a

/-- Modelled from the spec: `copyin(pagetable, dst, srcva, PGSIZE)` of `vm.c`,
the copy-in of the page-table interface; when `srcva` is not mapped the call
fails and `dst` keeps its contents. -/
def copyin (pt : pagetable_t) (dst : Bytes) (srcva : Nat) : Bytes :=
  match pt srcva with
  | some page => fun k => if k < PGSIZE then page k else dst k
  | none => dst

/-- Modelled from the spec: `copyout(pagetable, dstva, src, PGSIZE)` of
`vm.c`, the copy-out of the page-table interface; when `dstva` is not mapped
the call fails and the page table keeps its contents. -/
def copyout (pt : pagetable_t) (dstva : Nat) (src : Bytes) : pagetable_t :=
  match pt dstva with
  | some page => fun a => if a = dstva then some (fun k => if k < PGSIZE then src k else page k) else pt a
  | none => pt

/-- Modelled from the spec: the effect of a successful `loadseg(pagetable, va,
ip, offset, PGSIZE)` of `exec.c`, which "copies exactly one page's worth of
bytes from that file offset into the new mapping". -/
def loadseg (pt : pagetable_t) (va : Nat) (ip : inode) (offset : Nat) : pagetable_t :=
  copyout pt va (fun k => ip.data (offset + k))

/-- The shape shared by the search loops `for (i = 0; i < MAXHEAP; i++) if (P)
{ idx = i; break; }` with `idx` initially `-1`, over the slots from index `i`
on: the first index whose entry satisfies `P`, or `-1`. -/
def first_index (P : heap_tracker_t → Bool) : List heap_tracker_t → Nat → Int
  | [], _ => -1
  | e :: es, i => if P e = true then (i : Int) else first_index P es (i + 1)

/-! ## `evict_page_to_disk` -/

/-- The scan `for (block = PSASTART; block < PSAEND - 3; block += 4)` of
`evict_page_to_disk`, entered at `block`: the value of `blockno` when the loop
ends, which is the first `block` with `!psa_tracker[block]` or else the
initial `0`. `none` means the recursion bound was used up before the loop
ended; `alloc_psa_block_returns` shows that the bound `PSAEND + 1` used by
`alloc_psa_block` is never used up. -/
def find_free_block (psa : Nat → Bool) (PSAEND : Nat) : Nat → Nat → Option Nat
  | 0, _ => none
  | fuel + 1, block =>
    if block + 3 < PSAEND then
      if psa block = false then some block
      else find_free_block psa PSAEND fuel (block + 4)
    else some 0

/-- The loop `for (i = 0; i < 4; i++) psa_tracker[blockno + i] = true`. -/
def mark_allocated (psa : Nat → Bool) (blockno : Nat) : Nat → Bool :=
  (List.range 4).foldl (fun t i => fun j => if j = blockno + i then true else t j) psa

/-- The FIFO loop of `evict_page_to_disk` over the slots from index `i` on,
with the current `oldest_idx` and `oldest_time`; the result is the final
`oldest_idx`. -/
def find_victim : List heap_tracker_t → Nat → Int → Nat → Int
  | [], _, oldest_idx, _ => oldest_idx
  | e :: es, i, oldest_idx, oldest_time =>
    if e.loaded = true ∧ e.last_load_time < oldest_time then
      find_victim es (i + 1) (i : Int) e.last_load_time
    else find_victim es (i + 1) oldest_idx oldest_time

/-- The element `heap_tracker[i]` for an `int` index; `none` outside the array. -/
def heap_at (tr : List heap_tracker_t) (i : Int) : Option heap_tracker_t :=
  if i < 0 then none else tr[i.toNat]?

/-- One round of the write loop: `b = bread(1, n)`, then
`memmove(b->data, kpage + i*BSIZE, BSIZE)`, then `bwrite(b)`. -/
def write_block (disk : Int → Bytes) (n : Int) (kpage : Bytes) (i : Nat) : Int → Bytes :=
  fun b => if b = n then (fun k => if k < BSIZE then kpage (i * BSIZE + k) else disk n k) else disk b

/-- One round of the read loop: `b = bread(1, n)`, then
`memmove(kpage + i*BSIZE, b->data, BSIZE)`. -/
def read_block (disk : Int → Bytes) (n : Int) (kpage : Bytes) (i : Nat) : Bytes :=
  fun k => if i * BSIZE ≤ k ∧ k < i * BSIZE + BSIZE then disk n (k - i * BSIZE) else kpage k

/-- The write loop of `evict_page_to_disk`: for `i = 0 .. 3`, the bytes
`kpage + i*BSIZE ..` go to disk block `PSASTART + (blockno + i)`. -/
def write_page (disk : Int → Bytes) (PSASTART blockno : Nat) (kpage : Bytes) : Int → Bytes :=
  (List.range 4).foldl
    (fun d (i : Nat) => write_block d ((PSASTART : Int) + ((blockno : Int) + (i : Int))) kpage i)
    disk

/-- The read loop of `retrieve_page_from_disk`: for `i = 0 .. 3`, disk block
`PSASTART + startblock + i` goes to the bytes `kpage + i*BSIZE ..`. -/
def read_page (disk : Int → Bytes) (PSASTART : Nat) (startblock : Int) (kpage : Bytes) : Bytes :=
  (List.range 4).foldl
    (fun kp (i : Nat) => read_block disk ((PSASTART : Int) + startblock + (i : Int)) kp i) kpage

/-- The allocation at the start of `evict_page_to_disk` (the scan and the
marking loop): the chosen `blockno` and the bitmap afterwards. -/
def alloc_psa_block (c : Param) (psa : Nat → Bool) : Option (Nat × (Nat → Bool)) :=
  match find_free_block psa c.PSAEND (c.PSAEND + 1) c.PSASTART with
  | none => none
  | some blockno => some (blockno, mark_allocated psa blockno)

/-- The function `evict_page_to_disk`. -/
def evict_page_to_disk (c : Param) (x : World) (m : State) : Outcome :=
  match alloc_psa_block c m.psa_tracker with
  | none => .out_of_fuel
  | some (blockno, psa) =>
    let oldest_idx := find_victim m.heap_tracker 0 (-1) UINT64_MAX
    match heap_at m.heap_tracker oldest_idx with
    | none => .undefined
    | some victim =>
      let victim_addr := victim.addr
      let kpage := copyin m.pagetable x.kalloc victim_addr
      let disk := write_page m.disk c.PSASTART blockno kpage
      .returned
        { m with
          psa_tracker := psa
          disk := disk
          pagetable := uvmunmap m.pagetable victim_addr
          heap_tracker := m.heap_tracker.set oldest_idx.toNat
            { victim with loaded := false, startblock := (blockno : Int) }
          resident_heap_pages := m.resident_heap_pages - 1 }

/-! ## `retrieve_page_from_disk` -/

/-- The search loop of `retrieve_page_from_disk`: the first index whose entry
has `addr == uvaddr && startblock != -1`, or the initial `-1`. -/
def find_swapped (uvaddr : Nat) (tr : List heap_tracker_t) : Int :=
  first_index (fun e => decide (e.addr = uvaddr ∧ e.startblock ≠ -1)) tr 0

/-- The function `retrieve_page_from_disk`. -/
def retrieve_page_from_disk (c : Param) (x : World) (uvaddr : Nat) (m : State) : Outcome :=
  let page_idx := find_swapped uvaddr m.heap_tracker
  if page_idx = -1 then .panicked "Page not found in PSA\n" m
  else
    match heap_at m.heap_tracker page_idx with
    | none => .undefined
    | some e =>
      let startblock := e.startblock
      let kpage := read_page m.disk c.PSASTART startblock x.kalloc
      .returned
        { m with
          pagetable := copyout m.pagetable uvaddr kpage
          heap_tracker := m.heap_tracker.set page_idx.toNat
            { e with loaded := false, startblock := -1 }
          resident_heap_pages := m.resident_heap_pages + 1 }

/-! ## `page_fault_handler` -/

/-- The first loop of `page_fault_handler`: whether some entry has
`addr == faulting_addr && startblock != -1`. -/
def load_from_disk (faulting_addr : Nat) (tr : List heap_tracker_t) : Bool :=
  tr.any (fun e => decide (e.addr = faulting_addr ∧ e.startblock ≠ -1))

/-- The second loop of `page_fault_handler`: the first index whose entry has
`addr == faulting_addr`, or the initial `-1` (`is_heap_page` is true exactly
when the result is not `-1`). -/
def find_heap_idx (faulting_addr : Nat) (tr : List heap_tracker_t) : Int :=
  first_index (fun e => decide (e.addr = faulting_addr)) tr 0

/-- The code after the label `heap_handle`. -/
def heap_handle (c : Param) (x : World) (faulting_addr : Nat) (heap_idx : Int)
    (from_disk : Bool) (m : State) : Outcome :=
  (if m.resident_heap_pages = (c.MAXRESHEAP : Int) then evict_page_to_disk c x m
   else .returned m).bind fun m1 =>
  if x.uvmalloc_ok faulting_addr (faulting_addr + PGSIZE) = false then
    .panicked "Heap page allocation failed\n" m1
  else
    let pt := uvmalloc m1.pagetable faulting_addr (faulting_addr + PGSIZE)
    match heap_at m1.heap_tracker heap_idx with
    | none => .undefined
    | some e =>
      let m2 : State :=
        { m1 with
          pagetable := pt
          heap_tracker := m1.heap_tracker.set heap_idx.toNat
            { e with loaded := true, last_load_time := x.ticks } }
      (if from_disk = true then retrieve_page_from_disk c x faulting_addr m2
       else .returned m2).bind fun m3 =>
      .returned { m3 with resident_heap_pages := m3.resident_heap_pages + 1 }

/-- The program-header loop of `page_fault_handler` with `n` headers left,
the next one being header `i`. The offset handed to `loadseg` is computed in
`uint64` and received in a `uint` parameter. -/
def load_segments (c : Param) (x : World) (ip : inode) (faulting_addr : Nat) :
    Nat → Nat → State → Outcome
  | 0, _, m => .returned m
  | n + 1, i, m =>
    match ip.ph i with
    | none => .panicked "Program header read failed" m
    | some ph =>
      if ph.type ≠ c.ELF_PROG_LOAD then load_segments c x ip faulting_addr n (i + 1) m
      else if ph.vaddr ≤ faulting_addr ∧ faulting_addr < (ph.vaddr + ph.memsz) % 2 ^ 64 then
        if x.uvmalloc_ok faulting_addr ((faulting_addr + ph.memsz) % 2 ^ 64) = false then
          .panicked "Free page allocation failed\n" m
        else
          let seg_offset := faulting_addr - ph.vaddr
          let offset := (ph.off + seg_offset) % 2 ^ 64 % 2 ^ 32
          let m1 : State :=
            { m with
              pagetable := uvmalloc m.pagetable faulting_addr ((faulting_addr + ph.memsz) % 2 ^ 64)
              loadseg_calls := m.loadseg_calls ++ [(faulting_addr, offset, PGSIZE)] }
          if x.loadseg_ok faulting_addr offset PGSIZE = false then
            .panicked "Segment load failed\n" m1
          else
            load_segments c x ip faulting_addr n (i + 1)
              { m1 with pagetable := loadseg m1.pagetable faulting_addr ip offset }
      else load_segments c x ip faulting_addr n (i + 1) m

/-- The function `page_fault_handler`, for the fault address `stval`. -/
def page_fault_handler (c : Param) (x : World) (stval : Nat) (m : State) : Outcome :=
  let faulting_addr := PGROUNDDOWN stval
  let from_disk := load_from_disk faulting_addr m.heap_tracker
  let heap_idx := find_heap_idx faulting_addr m.heap_tracker
  if heap_idx ≠ -1 then heap_handle c x faulting_addr heap_idx from_disk m
  else
    match x.namei with
    | none => .panicked "Process name not found\n" m
    | some ip =>
      match ip.elf with
      | none => .panicked "ELF header read failed\n" m
      | some elf =>
        if elf.magic ≠ c.ELF_MAGIC then .panicked "ELF header read failed\n" m
        else load_segments c x ip faulting_addr elf.phnum 0 m

/-! ## Properties named by the theorems, and concrete inputs -/

/-- The index `v` is the victim the eviction contract asks for: the slot of a
loaded entry whose `last_load_time` is at most that of every loaded entry, the
lowest slot among the loaded entries with that time. -/
def fifo_victim (tr : List heap_tracker_t) (v : Int) : Prop :=
  ∃ (n : Nat) (e : heap_tracker_t), v = (n : Int) ∧ tr[n]? = some e ∧ e.loaded = true ∧
    ∀ (j : Nat) (e' : heap_tracker_t), tr[j]? = some e' → e'.loaded = true →
      e.last_load_time ≤ e'.last_load_time ∧ (e'.last_load_time = e.last_load_time → n ≤ j)

/-- A tracker with one slot: a resident page whose `last_load_time` is
`0xFFFFFFFFFFFFFFFF`. -/
def tracker_max_time : List heap_tracker_t :=
  [{ addr := 0x4000, last_load_time := 0xFFFFFFFFFFFFFFFF, startblock := -1, loaded := true }]

/-- A tracker with three resident pages, the last two loaded at the same time. -/
def tracker_tie : List heap_tracker_t :=
  [{ addr := 0x4000, last_load_time := 5, startblock := -1, loaded := true },
   { addr := 0x5000, last_load_time := 3, startblock := -1, loaded := true },
   { addr := 0x6000, last_load_time := 3, startblock := -1, loaded := true }]

/-- Constants for the concrete runs: at most two resident heap pages and a
swap area of three 4-block groups, with lead blocks 33, 37 and 41. -/
def scenario_param : Param :=
  { MAXRESHEAP := 2, PSASTART := 33, PSAEND := 45, ELF_MAGIC := 0x464C457F, ELF_PROG_LOAD := 1 }

/-- A bitmap in which only the group with lead block 33 is allocated. -/
def psa_first_group : Nat → Bool := fun j => decide (33 ≤ j ∧ j < 37)

/-- Collaborators for the concrete runs: tick counter `t`, no executable
image, `kalloc` pages filled with the byte 5, `uvmalloc` and `loadseg` succeed. -/
def scenario_world (t : Nat) : World :=
  { ticks := t, namei := none, kalloc := fun _ => 5,
    uvmalloc_ok := fun _ _ => true, loadseg_ok := fun _ _ _ => true }

/-- A heap slot as it is before its page is first touched. -/
def fresh_slot (a : Nat) : heap_tracker_t :=
  { addr := a, last_load_time := 0xFFFFFFFFFFFFFFFF, startblock := -1, loaded := false }

/-- The initial state of a process that tracks the heap pages `addrs`: bitmap
cleared, nothing resident, nothing swapped, nothing mapped. -/
def initial_state (addrs : List Nat) : State :=
  init_psa_regions
    { psa_tracker := fun _ => false, disk := fun _ _ => 0, heap_tracker := addrs.map fresh_slot,
      resident_heap_pages := 0, pagetable := fun _ => none, loadseg_calls := [] }

/-- Page faults handled one after the other by `page_fault_handler`, each given
as the tick counter at the fault and the faulting address. -/
def run_faults (c : Param) (faults : List (Nat × Nat)) (m : State) : Outcome :=
  faults.foldl (fun o f => o.bind (page_fault_handler c (scenario_world f.1) f.2)) (.returned m)

/-- The tracker and the counter of the state a call returned with. -/
def Outcome.heap : Outcome → Option (List heap_tracker_t × Int)
  | .returned s => some (s.heap_tracker, s.resident_heap_pages)
  | _ => none

/-- A state as the four-fault scenario reaches it after its third fault: page
`0x4000` swapped out to the group with lead block 33 (disk blocks 66 to 69,
here filled with the byte 7), pages `0x5000` and `0x6000` resident. -/
def state_one_swapped : State :=
  { psa_tracker := fun j => decide (33 ≤ j ∧ j < 37)
    disk := fun b _ => if 66 ≤ b ∧ b < 70 then 7 else 0
    heap_tracker :=
      [{ addr := 0x4000, last_load_time := 1, startblock := 33, loaded := false },
       { addr := 0x5000, last_load_time := 2, startblock := -1, loaded := true },
       { addr := 0x6000, last_load_time := 3, startblock := -1, loaded := true }]
    resident_heap_pages := 2
    pagetable := fun a => if a = 0x5000 ∨ a = 0x6000 then some (fun _ => 0) else none
    loadseg_calls := [] }

/-- The program header `ph` is a loadable segment that contains the address
`f`: `type == ELF_PROG_LOAD` and `vaddr <= f < vaddr + memsz`. -/
def segment_contains (c : Param) (ph : proghdr) (f : Nat) : Prop :=
  ph.type = c.ELF_PROG_LOAD ∧ ph.vaddr ≤ f ∧ f < ph.vaddr + ph.memsz

/-- An executable image with a valid ELF header and the given program headers. -/
def image_of (c : Param) (phs : List proghdr) : inode :=
  { elf := some { magic := c.ELF_MAGIC, phoff := 64, phnum := phs.length }
    ph := fun i => phs[i]?
    data := fun k => k % 256 }

/-- Collaborators for the concrete runs on the binary path: the executable
image has the program headers `phs`; `uvmalloc` and `loadseg` succeed. -/
def image_world (c : Param) (phs : List proghdr) : World :=
  { ticks := 1, namei := some (image_of c phs), kalloc := fun _ => 5,
    uvmalloc_ok := fun _ _ => true, loadseg_ok := fun _ _ _ => true }

/-- The loadable segment `[0x1000, 0x3000)` at file offset `0x78`. -/
def text_segment : proghdr :=
  { type := 1, flags := 5, off := 0x78, vaddr := 0x1000, memsz := 0x2000 }

/-- A loadable segment `[0x1000, 0x3000)` whose file offset is `2^32`. -/
def far_segment : proghdr :=
  { type := 1, flags := 5, off := 0x100000000, vaddr := 0x1000, memsz := 0x2000 }

/-- A header that is not loadable (`type = 2`) and covers `[0x1000, 0x3000)`. -/
def note_segment : proghdr :=
  { type := 2, flags := 4, off := 0x40, vaddr := 0x1000, memsz := 0x2000 }

/-- A loadable segment `[0x8000, 0x9000)`. -/
def data_segment : proghdr :=
  { type := 1, flags := 6, off := 0x3000, vaddr := 0x8000, memsz := 0x1000 }

/-- The `loadseg` calls recorded in the state a call returned with. -/
def Outcome.loads : Outcome → Option (List (Nat × Nat × Nat))
  | .returned s => some s.loadseg_calls
  | _ => none

/-- Whether the call returned to the process (instead of reaching `panic`). -/
def Outcome.is_returned : Outcome → Bool
  | .returned _ => true
  | _ => false

/-- The counter invariant: `resident_heap_pages` equals the number of entries
with `loaded = true` and is at most `MAXRESHEAP`. -/
def counter_invariant (c : Param) (s : State) : Prop :=
  s.resident_heap_pages = ((s.heap_tracker.countP (fun e => e.loaded) : Nat) : Int) ∧
  s.resident_heap_pages ≤ (c.MAXRESHEAP : Int)

/-- The pages `A`, `B`, `C` of the four-fault scenario. -/
def pages_abc : List Nat := [0x4000, 0x5000, 0x6000]

/-- Six heap pages, twice as many as the swap area of `scenario_param` has groups. -/
def pages_six : List Nat := [0x4000, 0x5000, 0x6000, 0x7000, 0x8000, 0x9000]

/-- Whether the page at `a` is mapped in the state a call returned with. -/
def Outcome.is_mapped (o : Outcome) (a : Nat) : Bool :=
  match o with
  | .returned s => (s.pagetable a).isSome
  | _ => false

/-- A tracker in which two slots carry the address `0x4000`: slot 0 is
swapped out to the group with lead block 33 (disk blocks 66 to 69, holding
zeros), slot 1 is resident and its page holds the byte 7 throughout. -/
def state_duplicate_addr : State :=
  { psa_tracker := fun j => decide (33 ≤ j ∧ j < 37)
    disk := fun _ _ => 0
    heap_tracker :=
      [{ addr := 0x4000, last_load_time := 1, startblock := 33, loaded := false },
       { addr := 0x4000, last_load_time := 2, startblock := -1, loaded := true }]
    resident_heap_pages := 1
    pagetable := fun a => if a = 0x4000 then some (fun _ => 7) else none
    loadseg_calls := [] }

/-- Pages `0x4000` and `0x5000` resident, `0x6000` not yet touched; the page
at `0x4000` holds the byte 7 throughout. -/
def state_two_resident : State :=
  { psa_tracker := fun _ => false
    disk := fun _ _ => 0
    heap_tracker :=
      [{ addr := 0x4000, last_load_time := 1, startblock := -1, loaded := true },
       { addr := 0x5000, last_load_time := 2, startblock := -1, loaded := true },
       fresh_slot 0x6000]
    resident_heap_pages := 2
    pagetable := fun a =>
      if a = 0x4000 then some (fun _ => 7) else if a = 0x5000 then some (fun _ => 0) else none
    loadseg_calls := [] }

/-- No slot is both resident and swapped: no entry of `heap_tracker` has
`loaded = true` together with `startblock != -1`. -/
def no_resident_swapped (s : State) : Prop :=
  ∀ e, e ∈ s.heap_tracker → ¬ (e.loaded = true ∧ e.startblock ≠ -1)

/-- Pages `0x4000` and `0x5000` resident, both with the `last_load_time`
`0xFFFFFFFFFFFFFFFF`, page `0x6000` not yet touched; the budget
`MAXRESHEAP = 2` of `scenario_param` is used up. -/
def state_max_time_full : State :=
  { psa_tracker := fun _ => false
    disk := fun _ _ => 0
    heap_tracker :=
      [{ addr := 0x4000, last_load_time := 0xFFFFFFFFFFFFFFFF, startblock := -1, loaded := true },
       { addr := 0x5000, last_load_time := 0xFFFFFFFFFFFFFFFF, startblock := -1, loaded := true },
       fresh_slot 0x6000]
    resident_heap_pages := 2
    pagetable := fun a => if a = 0x4000 ∨ a = 0x5000 then some (fun _ => 0) else none
    loadseg_calls := [] }

/-- Seven heap pages, for a swap area of three groups and a budget of two
resident pages. -/
def pages_seven : List Nat := [0x4000, 0x5000, 0x6000, 0x7000, 0x8000, 0x9000, 0xA000]

/-- First-touch faults on the seven pages of `pages_seven`, in order, at ticks 1 to 7. -/
def faults_seven : List (Nat × Nat) :=
  [(1, 0x4000), (2, 0x5000), (3, 0x6000), (4, 0x7000), (5, 0x8000), (6, 0x9000), (7, 0xA000)]

end Pfault

/-!
Kernel image headers in the bootloader, `bootloader/elf.c`

Physical memory is a map from address to byte; a field of a struct at an
address is read little-endian from the bytes at its offset. The addresses
`RAMDISK` and `RECOVERYDISK` are the ones `elf.c` names in its comments; the
magic number and the field offsets belong to `elf.h` and `layout.h`, which are
not among the sources, and are parameters of the model.
-/

namespace Bootelf

/-- The type `enum kernel` of the argument `ktype`. -/
inductive kernel where
  | NORMAL
  | RECOVERY
deriving DecidableEq

/-- Constants of `layout.h` and `elf.h`: the two image addresses, the ELF magic
number, and the byte offsets of `magic`, `phoff`, `phentsize` in
`struct elfhdr` and of `vaddr` in `struct proghdr`. -/
structure Layout where
  RAMDISK : Nat
  RECOVERYDISK : Nat
  ELF_MAGIC : Nat
  magic_offset : Nat
  phoff_offset : Nat
  phentsize_offset : Nat
  vaddr_offset : Nat

/-- The `n`-byte little-endian value stored at `addr`. -/
def read_le (mem : Nat → Nat) (addr : Nat) : Nat → Nat
  | 0 => 0
  | n + 1 => mem addr % 256 + 256 * read_le mem (addr + 1) n

/-- The function `find_kernel_load_addr`: `kernel_elfhdr` points to the
selected image, `kernel_phdr` is `RAMDISK + phoff + phentsize`, and the result
is `kernel_phdr->vaddr`, or 0 when the magic number is wrong. -/
def find_kernel_load_addr (L : Layout) (mem : Nat → Nat) (ktype : kernel) : Nat :=
  let kernel_elfhdr := if ktype = kernel.NORMAL then L.RAMDISK else L.RECOVERYDISK
  if read_le mem (kernel_elfhdr + L.magic_offset) 4 ≠ L.ELF_MAGIC then 0
  else
    let phoff := read_le mem (kernel_elfhdr + L.phoff_offset) 8
    let phentsize := read_le mem (kernel_elfhdr + L.phentsize_offset) 2
    let kernel_phdr := (L.RAMDISK + phoff + phentsize) % 2 ^ 64
    read_le mem (kernel_phdr + L.vaddr_offset) 8

/-- The addresses of the comments in `elf.c` (`0x84000000`, `0x84500000`) with
the magic number and field offsets of a 64-bit ELF file. -/
def elf64_layout : Layout :=
  { RAMDISK := 0x84000000, RECOVERYDISK := 0x84500000, ELF_MAGIC := 0x464C457F,
    magic_offset := 0, phoff_offset := 32, phentsize_offset := 54, vaddr_offset := 16 }

/-- The memory that holds the listed bytes and 0 elsewhere. -/
def memory_of (bytes : List (Nat × Nat)) : Nat → Nat :=
  fun a => (bytes.lookup a).getD 0

/-- The bytes of a recovery image at `0x84500000`: the ELF magic number,
`phoff = 64`, `phentsize = 56`, and in the program header at offset `64 + 56`
the field `vaddr = 0x80200000`. -/
def recovery_image : List (Nat × Nat) :=
  [(0x84500000, 0x7F), (0x84500001, 0x45), (0x84500002, 0x4C), (0x84500003, 0x46),
   (0x84500020, 64), (0x84500036, 56),
   (0x8450008A, 0x20), (0x8450008B, 0x80)]

/-- A memory with the recovery image and a normal image whose program header at
offset `64 + 56` has `vaddr = 0x80000000`. -/
def memory_a : Nat → Nat :=
  memory_of ((0x8400008B, 0x80) :: recovery_image)

/-- The memory `memory_a` with one byte of the normal image changed: the
program header at offset `64 + 56` of the normal image has `vaddr = 0x81000000`. -/
def memory_b : Nat → Nat :=
  memory_of ((0x8400008B, 0x81) :: recovery_image)

end Bootelf

/-!
Emulation of privileged instructions, `kernel/trap-and-emulate.c`

`uint32` and `uint64` values are natural numbers. The instruction word fetched
through `walkaddr` is an argument of the model. An index outside `vm_reg_map`
ends the call in `Result.out_of_bounds`.
-/

namespace Trapemu

/-- The macro `U_MODE`. -/
def U_MODE : Int := 0

/-- The macro `S_MODE`. -/
def S_MODE : Int := 1

/-- The macro `M_MODE`. -/
def M_MODE : Int := 2

/-- The struct `vm_reg`. -/
structure vm_reg where
  mode : Int
  val : Nat

/-- The number of elements of `vm_reg_map`, declared as
`struct vm_reg vm_reg_map[0xfff]`: the valid indices are `0 .. 0xffe`. -/
def VM_REG_MAP_LEN : Nat := 0xfff

/-- The struct `vm_virtual_state`; `vm_reg_map i` is the element at index `i`,
which exists for `i < VM_REG_MAP_LEN`. -/
structure vm_virtual_state where
  vm_reg_map : Nat → vm_reg
  privilege_mode : Int

/-- The state `trap_and_emulate` works on: the global `vm_state`, and of the
current process `p->trapframe->epc`, the `uint64` slots of the trapframe
addressed as `&(p->trapframe->ra) + r - 1` (slot 1 is `ra`), and whether
`setkilled(p)` was called. -/
structure Machine where
  vm_state : vm_virtual_state
  epc : Nat
  reg_slot : Nat → Nat
  killed : Bool

/-- How a call of `trap_and_emulate` ends. -/
inductive Result where
  | done (s : Machine)
  | out_of_bounds (index : Nat)

/-- The field `op = instruction & 0x7F`. -/
def op (instruction : Nat) : Nat := instruction &&& 0x7F

/-- The field `rd = (instruction >> 7) & 0x1F`. -/
def rd (instruction : Nat) : Nat := (instruction >>> 7) &&& 0x1F

/-- The field `funct3 = (instruction >> 12) & 0x7`. -/
def funct3 (instruction : Nat) : Nat := (instruction >>> 12) &&& 0x7

/-- The field `rs1 = (instruction >> 15) & 0x1F`. -/
def rs1 (instruction : Nat) : Nat := (instruction >>> 15) &&& 0x1F

/-- The field `uimm = (instruction >> 20) & 0xFFF`. -/
def uimm (instruction : Nat) : Nat := (instruction >>> 20) &&& 0xFFF

/-- The element `vm_state.vm_reg_map[i]`; `none` outside the array. -/
def reg_at (st : vm_virtual_state) (i : Nat) : Option vm_reg :=
  if i < VM_REG_MAP_LEN then some (st.vm_reg_map i) else none

/-- The assignment `vm_state.vm_reg_map[i].val = v` for an index inside the array. -/
def set_val (st : vm_virtual_state) (i : Nat) (v : Nat) : vm_virtual_state :=
  { st with vm_reg_map := fun j => if j = i then { st.vm_reg_map i with val := v } else st.vm_reg_map j }

/-- The 64-bit complement `~mask`. -/
def not64 (mask : Nat) : Nat := 0xFFFFFFFFFFFFFFFF ^^^ mask

/-- The `sret` branch: the new `privilege_mode` and `sstatus`. -/
def sret_status (sstatus : Nat) : Int × Nat :=
  let mode := if (sstatus >>> 8) &&& 0x1 ≠ 0 then S_MODE else U_MODE
  let s1 := sstatus &&& not64 (1 <<< 8)
  let s2 := s1 ||| ((((s1 >>> 5) &&& 0x1) <<< 1) % 2 ^ 64)
  let s3 := s2 &&& not64 (1 <<< 5)
  (mode, s3)

/-- The `mret` branch: the new `privilege_mode` and `mstatus`;
`MSTATUS_MPP_MASK` is a macro of `riscv.h`, which is not among the sources. -/
def mret_status (MSTATUS_MPP_MASK : Nat) (mstatus : Nat) : Int × Nat :=
  let mode := if (mstatus >>> 11) &&& 0x1 ≠ 0 then S_MODE else U_MODE
  let s1 := mstatus &&& not64 MSTATUS_MPP_MASK
  let s2 := s1 ||| ((((s1 >>> 7) &&& 0x1) <<< 3) % 2 ^ 64)
  let s3 := s2 &&& (1 <<< 0x7)
  (mode, s3)

/-- The csrw branch, entered when `funct3 == 0x1`; `none` when its condition
`privilege_mode >= vm_reg_map[uimm].mode` is false. -/
def csrw (m : Machine) (instruction : Nat) : Option Result :=
  match reg_at m.vm_state (uimm instruction) with
  | none => some (.out_of_bounds (uimm instruction))
  | some r =>
    if m.vm_state.privilege_mode ≥ r.mode then
      some (.done
        { m with
          vm_state := set_val m.vm_state (uimm instruction) (m.reg_slot (rs1 instruction))
          epc := (m.epc + 4) % 2 ^ 64 })
    else none

/-- The csrr branch, entered when `funct3 == 0x2`; `none` when its condition
`privilege_mode >= vm_reg_map[uimm].mode` is false. -/
def csrr (m : Machine) (instruction : Nat) : Option Result :=
  match reg_at m.vm_state (uimm instruction) with
  | none => some (.out_of_bounds (uimm instruction))
  | some r =>
    if m.vm_state.privilege_mode ≥ r.mode then
      some (.done
        { m with
          reg_slot := fun j => if j = rd instruction then r.val else m.reg_slot j
          epc := (m.epc + 4) % 2 ^ 64 })
    else none

/-- The function `trap_and_emulate`, for the instruction word found at `sepc`. -/
def trap_and_emulate (MSTATUS_MPP_MASK : Nat) (m : Machine) (instruction : Nat) : Result :=
  let killed : Result := .done { m with killed := true }
  if funct3 instruction = 0x0 ∧ uimm instruction = 0 then
    let st := set_val m.vm_state 0x141 m.epc
    .done { m with
            vm_state := { st with privilege_mode := S_MODE }
            epc := (st.vm_reg_map 0x105).val }
  else if funct3 instruction = 0x0 ∧ uimm instruction = 0x102 ∧
      m.vm_state.privilege_mode ≥ S_MODE then
    let r := sret_status (m.vm_state.vm_reg_map 0x100).val
    let st := set_val { m.vm_state with privilege_mode := r.1 } 0x100 r.2
    .done { m with vm_state := st, epc := (st.vm_reg_map 0x141).val }
  else if funct3 instruction = 0x0 ∧ uimm instruction = 0x302 ∧
      m.vm_state.privilege_mode ≥ M_MODE then
    let r := mret_status MSTATUS_MPP_MASK (m.vm_state.vm_reg_map 0x300).val
    let st := set_val { m.vm_state with privilege_mode := r.1 } 0x300 r.2
    .done { m with vm_state := st, epc := (st.vm_reg_map 0x341).val }
  else if funct3 instruction = 0x1 then
    match csrw m instruction with
    | some res => res
    | none =>
      if funct3 instruction = 0x2 then (csrr m instruction).getD killed else killed
  else if funct3 instruction = 0x2 then (csrr m instruction).getD killed
  else killed

/-- A machine in which every virtual register is an M-mode register holding 0
and the VM runs in M mode. -/
def machine_zero : Machine :=
  { vm_state := { vm_reg_map := fun _ => { mode := 2, val := 0 }, privilege_mode := 2 }
    epc := 0x80000000
    reg_slot := fun _ => 0
    killed := false }

end Trapemu

/-! # Theorems -/

namespace Pfault

/-! ## Lemmas on the loops -/

theorem find_free_block_spec (psa : Nat → Bool) (E : Nat) :
    ∀ (fuel block : Nat), E < block + 4 * fuel → 0 < fuel →
      (∃ k, find_free_block psa E fuel block = some (block + 4 * k) ∧
          block + 4 * k + 3 < E ∧ psa (block + 4 * k) = false ∧
          ∀ k', k' < k → psa (block + 4 * k') = true) ∨
      (find_free_block psa E fuel block = some 0 ∧
          ∀ k, block + 4 * k + 3 < E → psa (block + 4 * k) = true) := by
  intro fuel
  induction fuel with
  | zero => intro block _ h; omega
  | succ f ih =>
    intro block hE _
    unfold find_free_block
    by_cases hlt : block + 3 < E
    · by_cases hp : psa block = false
      · left
        refine ⟨0, ?_, ?_, ?_, ?_⟩
        · simp [hlt, hp]
        · simpa using hlt
        · simpa using hp
        · intro k' hk'; omega
      · have hp' : psa block = true := by simpa using hp
        have hf : 0 < f := by omega
        rcases ih (block + 4) (by omega) hf with ⟨k, h1, h2, h3, h4⟩ | ⟨h1, h2⟩
        · left
          refine ⟨k + 1, ?_, ?_, ?_, ?_⟩
          · simp only [hlt, hp', if_true]
            rw [h1]; simp; omega
          · omega
          · rw [← h3]; congr 1; omega
          · intro k' hk'
            rcases Nat.eq_zero_or_pos k' with h0 | hpos
            · subst h0; simpa using hp'
            · have := h4 (k' - 1) (by omega)
              rw [← this]; congr 1; omega
        · right
          refine ⟨?_, ?_⟩
          · simp only [hlt, hp', if_true]
            rw [h1]; simp
          · intro k hk
            rcases Nat.eq_zero_or_pos k with h0 | hpos
            · subst h0; simpa using hp'
            · have := h2 (k - 1) (by omega)
              rw [← this]; congr 1; omega
    · right
      refine ⟨by simp [hlt], ?_⟩
      intro k hk; omega

theorem mark_allocated_apply (psa : Nat → Bool) (b j : Nat) :
    mark_allocated psa b j = if b ≤ j ∧ j < b + 4 then true else psa j := by
  simp only [mark_allocated, List.range, List.range.loop, List.foldl]
  by_cases h : b ≤ j ∧ j < b + 4
  · have : j = b + 3 ∨ j = b + 2 ∨ j = b + 1 ∨ j = b + 0 := by omega
    simp only [h, and_self, if_true]
    rcases this with h | h | h | h <;> simp [h]
  · have h3 : j ≠ b + 3 := by omega
    have h2 : j ≠ b + 2 := by omega
    have h1 : j ≠ b + 1 := by omega
    have h0 : j ≠ b := by omega
    simp [h, h3, h2, h1, h0]

theorem find_victim_spec :
    ∀ (es : List heap_tracker_t) (i : Nat) (idx : Int) (t : Nat),
      ((∀ e, e ∈ es → e.loaded = true → t ≤ e.last_load_time) ∧
          find_victim es i idx t = idx) ∨
      (∃ (k : Nat) (e : heap_tracker_t), es[k]? = some e ∧
          find_victim es i idx t = ((i + k : Nat) : Int) ∧
          e.loaded = true ∧ e.last_load_time < t ∧
          ∀ (j : Nat) (e' : heap_tracker_t), es[j]? = some e' → e'.loaded = true →
            e.last_load_time ≤ e'.last_load_time ∧
            (e'.last_load_time = e.last_load_time → k ≤ j)) := by
  intro es
  induction es with
  | nil => intro i idx t; left; simp [find_victim]
  | cons a es ih =>
    intro i idx t
    unfold find_victim
    by_cases hc : a.loaded = true ∧ a.last_load_time < t
    · rw [if_pos hc]
      rcases ih (i + 1) (i : Int) a.last_load_time with ⟨h1, h2⟩ | ⟨k, e, hk, hr, hl, hlt, hmin⟩
      · right
        refine ⟨0, a, by simp, by simpa using h2, hc.1, hc.2, ?_⟩
        intro j e' hj hl'
        cases j with
        | zero =>
          simp at hj; subst hj; simp
        | succ j =>
          simp at hj
          have := h1 e' (List.getElem?_mem hj) hl'
          exact ⟨this, fun _ => Nat.zero_le _⟩
      · right
        refine ⟨k + 1, e, by simpa using hk, ?_, hl, by omega, ?_⟩
        · rw [hr]; congr 1; omega
        · intro j e' hj hl'
          cases j with
          | zero =>
            simp at hj
            rw [hj] at hlt
            exact ⟨by omega, fun h => by omega⟩
          | succ j =>
            simp at hj
            have := hmin j e' hj hl'
            exact ⟨this.1, fun h => by have := this.2 h; omega⟩
    · rw [if_neg hc]
      rcases ih (i + 1) idx t with ⟨h1, h2⟩ | ⟨k, e, hk, hr, hl, hlt, hmin⟩
      · left
        refine ⟨?_, h2⟩
        intro e he hl
        rcases List.mem_cons.mp he with h | h
        · subst h
          by_contra hn
          exact hc ⟨hl, by omega⟩
        · exact h1 e h hl
      · right
        refine ⟨k + 1, e, by simpa using hk, ?_, hl, hlt, ?_⟩
        · rw [hr]; congr 1; omega
        · intro j e' hj hl'
          cases j with
          | zero =>
            simp at hj
            rw [hj] at hc
            have : t ≤ e'.last_load_time := by
              by_contra hn
              exact hc ⟨hl', by omega⟩
            exact ⟨by omega, fun h => by omega⟩
          | succ j =>
            simp at hj
            have := hmin j e' hj hl'
            exact ⟨this.1, fun h => by have := this.2 h; omega⟩

theorem first_index_none (P : heap_tracker_t → Bool) :
    ∀ (es : List heap_tracker_t) (i : Nat),
      (∀ e, e ∈ es → P e = false) → first_index P es i = -1 := by
  intro es
  induction es with
  | nil => intro i _; rfl
  | cons a es ih =>
    intro i h
    unfold first_index
    have ha : P a = false := h a (List.mem_cons_self _ _)
    simp only [ha, Bool.false_eq_true, if_false]
    exact ih (i + 1) (fun e he => h e (List.mem_cons_of_mem _ he))

theorem first_index_found (P : heap_tracker_t → Bool) :
    ∀ (es : List heap_tracker_t) (i k : Nat) (e : heap_tracker_t),
      es[k]? = some e → P e = true →
      (∀ (j : Nat) (e' : heap_tracker_t), j < k → es[j]? = some e' → P e' = false) →
      first_index P es i = ((i + k : Nat) : Int) := by
  intro es
  induction es with
  | nil => intro i k e hk; simp at hk
  | cons a es ih =>
    intro i k e hk hP hmin
    unfold first_index
    cases k with
    | zero =>
      simp at hk; subst hk
      simp [hP]
    | succ k =>
      have ha : P a = false := hmin 0 a (by omega) (by simp)
      simp only [ha, Bool.false_eq_true, if_false]
      simp at hk
      rw [ih (i + 1) k e hk hP (fun j e' hj hje => hmin (j + 1) e' (by omega) (by simpa using hje))]
      congr 1; omega

theorem first_index_cases (P : heap_tracker_t → Bool) :
    ∀ (es : List heap_tracker_t) (i : Nat),
      (first_index P es i = -1 ∧ ∀ e, e ∈ es → P e = false) ∨
      ∃ (k : Nat) (e : heap_tracker_t), es[k]? = some e ∧ P e = true ∧
        first_index P es i = ((i + k : Nat) : Int) ∧
        ∀ (j : Nat) (e' : heap_tracker_t), j < k → es[j]? = some e' → P e' = false := by
  intro es
  induction es with
  | nil => intro i; left; exact ⟨rfl, fun e he => by simp at he⟩
  | cons a es ih =>
    intro i
    unfold first_index
    by_cases ha : P a = true
    · right
      refine ⟨0, a, by simp, ha, by simp [ha], ?_⟩
      intro j e' hj; omega
    · have ha' : P a = false := by simpa using ha
      simp only [ha', Bool.false_eq_true, if_false]
      rcases ih (i + 1) with ⟨h, hall⟩ | ⟨k, e, hk, hP, hr, hmin⟩
      · left
        refine ⟨h, ?_⟩
        intro e he
        rcases List.mem_cons.mp he with h' | h'
        · rw [h']; exact ha'
        · exact hall e h'
      · right
        refine ⟨k + 1, e, by simpa using hk, hP, ?_, ?_⟩
        · rw [hr]; congr 1; omega
        · intro j e' hj hje
          cases j with
          | zero => simp at hje; subst hje; exact ha'
          | succ j => simp at hje; exact hmin j e' (by omega) hje

theorem alloc_psa_block_returns (c : Param) (psa : Nat → Bool) :
    ∃ r, alloc_psa_block c psa = some r := by
  unfold alloc_psa_block
  rcases find_free_block_spec psa c.PSAEND (c.PSAEND + 1) c.PSASTART (by omega) (by omega) with
    ⟨k, h, _⟩ | ⟨h, _⟩ <;> rw [h] <;> exact ⟨_, rfl⟩

/-- C2 (counterexample): a tracker whose only loaded entry carries the
timestamp `0xFFFFFFFFFFFFFFFF` has a loaded entry, yet the FIFO loop leaves
`oldest_idx` at `-1`, which is not the slot of a loaded entry. -/
theorem find_victim_misses_max_timestamp :
    (∃ e, e ∈ tracker_max_time ∧ e.loaded = true) ∧
    find_victim tracker_max_time 0 (-1) UINT64_MAX = -1 ∧
    ¬ fifo_victim tracker_max_time (find_victim tracker_max_time 0 (-1) UINT64_MAX) := by
  have hv : find_victim tracker_max_time 0 (-1) UINT64_MAX = -1 := by decide
  refine ⟨⟨_, List.mem_singleton.mpr rfl, rfl⟩, hv, ?_⟩
  rw [hv]
  rintro ⟨n, e, hn, _⟩
  omega

/-- C2 (amended): when some loaded entry has a `last_load_time` below
`0xFFFFFFFFFFFFFFFF`, the index the FIFO loop of `evict_page_to_disk` ends with
is the slot of a loaded entry whose `last_load_time` is at most that of every
loaded entry, and it is the lowest slot among the loaded entries with that
time; a slot with `loaded = false` is never the result. -/
theorem find_victim_is_fifo (tr : List heap_tracker_t)
    (h : ∃ e, e ∈ tr ∧ e.loaded = true ∧ e.last_load_time < UINT64_MAX) :
    fifo_victim tr (find_victim tr 0 (-1) UINT64_MAX) := by
  rcases find_victim_spec tr 0 (-1) UINT64_MAX with ⟨h1, _⟩ | ⟨k, e, hk, hr, hl, _, hmin⟩
  · rcases h with ⟨e, he, hl, hlt⟩
    have := h1 e he hl
    omega
  · exact ⟨k, e, by rw [hr]; simp, hk, hl, hmin⟩

/-- C2 (witness): three resident pages with times 5, 3, 3; the victim is slot 1. -/
theorem find_victim_is_fifo_witness :
    (∃ e, e ∈ tracker_tie ∧ e.loaded = true ∧ e.last_load_time < UINT64_MAX) ∧
    fifo_victim tracker_tie (find_victim tracker_tie 0 (-1) UINT64_MAX) :=
  ⟨⟨_, List.mem_cons_self _ _, rfl, by decide⟩,
   find_victim_is_fifo tracker_tie ⟨_, List.mem_cons_self _ _, rfl, by decide⟩⟩

theorem heap_at_eq_some (tr : List heap_tracker_t) (i : Int) (e : heap_tracker_t)
    (h : heap_at tr i = some e) : 0 ≤ i ∧ tr[i.toNat]? = some e := by
  unfold heap_at at h
  by_cases hi : i < 0
  · simp [hi] at h
  · simp only [hi, if_false] at h
    exact ⟨by omega, h⟩

theorem heap_at_natCast (tr : List heap_tracker_t) (n : Nat) :
    heap_at tr (n : Int) = tr[n]? := by
  unfold heap_at
  have : ¬ ((n : Int) < 0) := by omega
  simp [this]

theorem heap_at_set_self (tr : List heap_tracker_t) (i : Int) (e e' : heap_tracker_t)
    (h : heap_at tr i = some e) : heap_at (tr.set i.toNat e') i = some e' := by
  obtain ⟨h0, h1⟩ := heap_at_eq_some tr i e h
  unfold heap_at
  have hi : ¬ (i < 0) := by omega
  simp only [hi, if_false]
  have hlt : i.toNat < tr.length := by
    rcases List.getElem?_eq_some.mp h1 with ⟨hl, _⟩
    exact hl
  simp [List.getElem?_set, hlt]

/-- C10: when some group of the scanned range has a free lead block, the
allocation at the start of `evict_page_to_disk` chooses the lowest lead index
`PSASTART + 4*k0` whose lead block is free; afterwards that block and the next
three are marked allocated and every other bitmap entry is unchanged. An
eviction that returns leaves exactly this bitmap in `psa_tracker` and this
block number in the victim's `startblock`. -/
theorem alloc_psa_block_first_fit (c : Param) (psa : Nat → Bool)
    (h : ∃ k, c.PSASTART + 4 * k + 3 < c.PSAEND ∧ psa (c.PSASTART + 4 * k) = false) :
    ∃ (k0 : Nat) (psa' : Nat → Bool),
      alloc_psa_block c psa = some (c.PSASTART + 4 * k0, psa') ∧
      c.PSASTART + 4 * k0 + 3 < c.PSAEND ∧
      psa (c.PSASTART + 4 * k0) = false ∧
      (∀ k, k < k0 → psa (c.PSASTART + 4 * k) = true) ∧
      (∀ j, psa' j =
        if c.PSASTART + 4 * k0 ≤ j ∧ j < c.PSASTART + 4 * k0 + 4 then true else psa j) ∧
      (∀ (x : World) (m m' : State), m.psa_tracker = psa →
        evict_page_to_disk c x m = .returned m' →
        m'.psa_tracker = psa' ∧
        ∃ e, heap_at m'.heap_tracker (find_victim m.heap_tracker 0 (-1) UINT64_MAX) = some e ∧
          e.startblock = ((c.PSASTART + 4 * k0 : Nat) : Int)) := by
  rcases find_free_block_spec psa c.PSAEND (c.PSAEND + 1) c.PSASTART (by omega) (by omega) with
    ⟨k0, h1, h2, h3, h4⟩ | ⟨_, h2⟩
  · have ha : alloc_psa_block c psa =
        some (c.PSASTART + 4 * k0, mark_allocated psa (c.PSASTART + 4 * k0)) := by
      unfold alloc_psa_block; rw [h1]
    refine ⟨k0, mark_allocated psa (c.PSASTART + 4 * k0), ha, h2, h3, h4,
      fun j => mark_allocated_apply psa _ j, ?_⟩
    intro x m m' hm hev
    unfold evict_page_to_disk at hev
    rw [hm, ha] at hev
    simp only at hev
    cases hv : heap_at m.heap_tracker (find_victim m.heap_tracker 0 (-1) UINT64_MAX) with
    | none => rw [hv] at hev; simp at hev
    | some victim =>
      rw [hv] at hev
      simp only [Outcome.returned.injEq] at hev
      subst hev
      refine ⟨rfl, _, heap_at_set_self _ _ _ _ hv, rfl⟩
  · rcases h with ⟨k, hk1, hk2⟩
    have := h2 k hk1
    rw [this] at hk2
    exact absurd hk2 (by simp)

/-- C10 (witness): with `PSASTART = 33`, `PSAEND = 45` and only group 33
allocated, the allocation chooses block 37. -/
theorem alloc_psa_block_first_fit_witness :
    (∃ k, scenario_param.PSASTART + 4 * k + 3 < scenario_param.PSAEND ∧
        psa_first_group (scenario_param.PSASTART + 4 * k) = false) ∧
    ∃ (k0 : Nat) (psa' : Nat → Bool),
      alloc_psa_block scenario_param psa_first_group
        = some (scenario_param.PSASTART + 4 * k0, psa') ∧
      scenario_param.PSASTART + 4 * k0 + 3 < scenario_param.PSAEND ∧
      psa_first_group (scenario_param.PSASTART + 4 * k0) = false ∧
      (∀ k, k < k0 → psa_first_group (scenario_param.PSASTART + 4 * k) = true) ∧
      (∀ j, psa' j =
        if scenario_param.PSASTART + 4 * k0 ≤ j ∧ j < scenario_param.PSASTART + 4 * k0 + 4
        then true else psa_first_group j) ∧
      (∀ (x : World) (m m' : State), m.psa_tracker = psa_first_group →
        evict_page_to_disk scenario_param x m = .returned m' →
        m'.psa_tracker = psa' ∧
        ∃ e, heap_at m'.heap_tracker (find_victim m.heap_tracker 0 (-1) UINT64_MAX) = some e ∧
          e.startblock = ((scenario_param.PSASTART + 4 * k0 : Nat) : Int)) :=
  ⟨⟨1, by decide, by decide⟩,
   alloc_psa_block_first_fit scenario_param psa_first_group ⟨1, by decide, by decide⟩⟩

theorem find_swapped_found (a : Nat) (tr : List heap_tracker_t) (i : Nat) (e : heap_tracker_t)
    (hi : tr[i]? = some e) (ha : e.addr = a) (hs : e.startblock ≠ -1)
    (hfirst : ∀ (j : Nat) (e' : heap_tracker_t), j < i → tr[j]? = some e' →
      ¬ (e'.addr = a ∧ e'.startblock ≠ -1)) :
    find_swapped a tr = (i : Int) := by
  unfold find_swapped
  rw [first_index_found _ tr 0 i e hi (by simp [ha, hs])
    (fun j e' hj hje => by simpa using hfirst j e' hj hje)]
  simp

theorem retrieve_serviced (c : Param) (x : World) (a : Nat) (m : State) (i : Nat)
    (e : heap_tracker_t) (hi : m.heap_tracker[i]? = some e) (ha : e.addr = a)
    (hs : e.startblock ≠ -1)
    (hfirst : ∀ (j : Nat) (e' : heap_tracker_t), j < i → m.heap_tracker[j]? = some e' →
      ¬ (e'.addr = a ∧ e'.startblock ≠ -1)) :
    retrieve_page_from_disk c x a m = .returned
      { m with
        pagetable := copyout m.pagetable a (read_page m.disk c.PSASTART e.startblock x.kalloc)
        heap_tracker := m.heap_tracker.set i { e with loaded := false, startblock := -1 }
        resident_heap_pages := m.resident_heap_pages + 1 } := by
  unfold retrieve_page_from_disk
  have hf := find_swapped_found a m.heap_tracker i e hi ha hs hfirst
  have hne : ¬ ((i : Int) = -1) := by omega
  simp only [hf, hne, if_false, heap_at_natCast, hi, Int.toNat_ofNat]

theorem retrieve_not_found (c : Param) (x : World) (a : Nat) (m : State)
    (h : ∀ e, e ∈ m.heap_tracker → ¬ (e.addr = a ∧ e.startblock ≠ -1)) :
    retrieve_page_from_disk c x a m = .panicked "Page not found in PSA\n" m := by
  unfold retrieve_page_from_disk
  have hf : find_swapped a m.heap_tracker = -1 := by
    unfold find_swapped
    exact first_index_none _ _ 0 (fun e he => by simpa using h e he)
  simp [hf]

theorem pairwise_addr_ne (tr : List heap_tracker_t)
    (hd : tr.Pairwise (fun e e' => e.addr ≠ e'.addr)) (i j : Nat) (e e' : heap_tracker_t)
    (hi : tr[i]? = some e) (hj : tr[j]? = some e') (hij : i ≠ j) : e.addr ≠ e'.addr := by
  rcases List.getElem?_eq_some.mp hi with ⟨hil, hie⟩
  rcases List.getElem?_eq_some.mp hj with ⟨hjl, hje⟩
  rw [List.pairwise_iff_getElem] at hd
  rcases Nat.lt_or_gt_of_ne hij with h | h
  · have := hd i j hil hjl h
    rw [hie, hje] at this; exact this
  · have := hd j i hjl hil h
    rw [hie, hje] at this; exact fun h' => this h'.symm

/-- C6 (counterexample): the entry at `0x4000` is swapped out to the group
with lead block 33, whose four bitmap entries are marked allocated;
`retrieve_page_from_disk` returns with the entry's `startblock` at `-1`, and
the four bitmap entries are still marked allocated. -/
theorem retrieve_keeps_blocks_allocated :
    ∃ m', retrieve_page_from_disk scenario_param (scenario_world 4) 0x4000 state_one_swapped
        = .returned m' ∧
      state_one_swapped.heap_tracker[0]? =
        some { addr := 0x4000, last_load_time := 1, startblock := 33, loaded := false } ∧
      (m'.heap_tracker[0]?).map (fun e => e.startblock) = some (-1) ∧
      m'.psa_tracker 33 = true ∧ m'.psa_tracker 34 = true ∧
      m'.psa_tracker 35 = true ∧ m'.psa_tracker 36 = true ∧
      ¬ (m'.psa_tracker 33 = false ∧ m'.psa_tracker 34 = false ∧
         m'.psa_tracker 35 = false ∧ m'.psa_tracker 36 = false) :=
  ⟨_, rfl, by decide, by decide, by decide, by decide, by decide, by decide, by decide⟩

/-- C6 (amended): for the entry that `retrieve_page_from_disk(p, a)` services,
the lowest slot with `addr = a` and `startblock != -1`, the call returns, the
entry's `startblock` is `-1` afterwards, and `psa_tracker` is unchanged: the
four bitmap entries of the group keep the marks they had. -/
theorem retrieve_resets_startblock_keeps_bitmap (c : Param) (x : World) (a : Nat) (m : State)
    (i : Nat) (e : heap_tracker_t) (hi : m.heap_tracker[i]? = some e) (ha : e.addr = a)
    (hs : e.startblock ≠ -1)
    (hfirst : ∀ (j : Nat) (e' : heap_tracker_t), j < i → m.heap_tracker[j]? = some e' →
      ¬ (e'.addr = a ∧ e'.startblock ≠ -1)) :
    ∃ m', retrieve_page_from_disk c x a m = .returned m' ∧
      (∃ e', m'.heap_tracker[i]? = some e' ∧ e'.addr = a ∧ e'.startblock = -1) ∧
      m'.psa_tracker = m.psa_tracker := by
  refine ⟨_, retrieve_serviced c x a m i e hi ha hs hfirst, ?_, rfl⟩
  have hlt : i < m.heap_tracker.length := (List.getElem?_eq_some.mp hi).1
  exact ⟨{ e with loaded := false, startblock := -1 }, by simp [List.getElem?_set, hlt], ha, rfl⟩

/-- C6 (witness): the swapped entry of `state_one_swapped`. -/
theorem retrieve_resets_startblock_keeps_bitmap_witness :
    ∃ m', retrieve_page_from_disk scenario_param (scenario_world 4) 0x4000 state_one_swapped
        = .returned m' ∧
      (∃ e', m'.heap_tracker[0]? = some e' ∧ e'.addr = 0x4000 ∧ e'.startblock = -1) ∧
      m'.psa_tracker = state_one_swapped.psa_tracker :=
  retrieve_resets_startblock_keeps_bitmap scenario_param (scenario_world 4) 0x4000
    state_one_swapped 0 { addr := 0x4000, last_load_time := 1, startblock := 33, loaded := false }
    (by decide) rfl (by decide) (fun j _ hj _ => absurd hj (Nat.not_lt_zero j))

/-- C8: when the tracker's addresses are pairwise distinct and the entry at
address `a` has `startblock != -1`, a first `retrieve_page_from_disk(p, a)`
returns and leaves that entry's `startblock` at `-1`; a second call made
directly afterwards panics with "Page not found in PSA" in the very state the
first call returned, so tracker, counter and page are unchanged. -/
theorem second_retrieve_panics (c : Param) (x x' : World) (a : Nat) (m : State) (i : Nat)
    (e : heap_tracker_t)
    (hd : m.heap_tracker.Pairwise (fun e e' => e.addr ≠ e'.addr))
    (hi : m.heap_tracker[i]? = some e) (ha : e.addr = a) (hs : e.startblock ≠ -1) :
    ∃ m1, retrieve_page_from_disk c x a m = .returned m1 ∧
      (∃ e1, m1.heap_tracker[i]? = some e1 ∧ e1.addr = a ∧ e1.startblock = -1) ∧
      retrieve_page_from_disk c x' a m1 = .panicked "Page not found in PSA\n" m1 := by
  have hfirst : ∀ (j : Nat) (e' : heap_tracker_t), j < i → m.heap_tracker[j]? = some e' →
      ¬ (e'.addr = a ∧ e'.startblock ≠ -1) := by
    intro j e' hj hje h
    exact pairwise_addr_ne _ hd i j e e' hi hje (by omega) (by rw [ha, h.1])
  have hlt : i < m.heap_tracker.length := (List.getElem?_eq_some.mp hi).1
  refine ⟨_, retrieve_serviced c x a m i e hi ha hs hfirst, ?_, ?_⟩
  · exact ⟨{ e with loaded := false, startblock := -1 }, by simp [List.getElem?_set, hlt], ha, rfl⟩
  · apply retrieve_not_found
    intro e' he' h
    simp only at he'
    rcases List.mem_iff_getElem?.mp he' with ⟨j, hj⟩
    rw [List.getElem?_set] at hj
    by_cases hij : i = j
    · simp only [hij, if_true] at hj
      split at hj
      · simp at hj; rw [← hj] at h; exact h.2 rfl
      · simp at hj
    · simp only [hij, if_false] at hj
      exact pairwise_addr_ne _ hd i j e e' hi hj hij (by rw [ha, h.1])

/-- C8 (witness): pages `0x4000`, `0x5000`, `0x6000`, the first one swapped out. -/
theorem second_retrieve_panics_witness :
    state_one_swapped.heap_tracker.Pairwise (fun e e' => e.addr ≠ e'.addr) ∧
    ∃ m1, retrieve_page_from_disk scenario_param (scenario_world 4) 0x4000 state_one_swapped
        = .returned m1 ∧
      (∃ e1, m1.heap_tracker[0]? = some e1 ∧ e1.addr = 0x4000 ∧ e1.startblock = -1) ∧
      retrieve_page_from_disk scenario_param (scenario_world 5) 0x4000 m1
        = .panicked "Page not found in PSA\n" m1 :=
  ⟨by decide,
   second_retrieve_panics scenario_param (scenario_world 4) (scenario_world 5) 0x4000
    state_one_swapped 0 { addr := 0x4000, last_load_time := 1, startblock := 33, loaded := false }
    (by decide) (by decide) rfl (by decide)⟩

theorem find_heap_idx_none (f : Nat) (tr : List heap_tracker_t)
    (h : ∀ e, e ∈ tr → e.addr ≠ f) : find_heap_idx f tr = -1 := by
  unfold find_heap_idx
  exact first_index_none _ _ 0 (fun e he => by simpa using h e he)

theorem load_segments_no_match (c : Param) (x : World) (ip : inode) (f : Nat) :
    ∀ (n i : Nat) (m : State),
      (∀ j, i ≤ j → j < i + n → ∃ ph, ip.ph j = some ph ∧ ¬ segment_contains c ph f) →
      load_segments c x ip f n i m = .returned m := by
  intro n
  induction n with
  | zero => intro i m _; rfl
  | succ n ih =>
    intro i m h
    obtain ⟨ph, hph, hno⟩ := h i (Nat.le_refl _) (by omega)
    unfold load_segments
    simp only [hph]
    have hrest := ih (i + 1) m (fun j h1 h2 => h j (by omega) (by omega))
    by_cases ht : ph.type = c.ELF_PROG_LOAD
    · have hcond : ¬ (ph.vaddr ≤ f ∧ f < (ph.vaddr + ph.memsz) % 2 ^ 64) := by
        intro hc
        have hle : (ph.vaddr + ph.memsz) % 2 ^ 64 ≤ ph.vaddr + ph.memsz := Nat.mod_le _ _
        exact hno ⟨ht, hc.1, by omega⟩
      simp only [ht, ne_eq, not_true_eq_false, if_false, hcond]
      exact hrest
    · simp only [ne_eq, ht, not_false_eq_true, if_true]
      exact hrest

theorem load_segments_one_match (c : Param) (x : World) (ip : inode) (f : Nat) (i0 : Nat)
    (ph0 : proghdr) (h0 : ip.ph i0 = some ph0) (hc : segment_contains c ph0 f)
    (hwrap : ph0.vaddr + ph0.memsz < 2 ^ 64) (hoff : ph0.off + (f - ph0.vaddr) < 2 ^ 32)
    (hmap : x.uvmalloc_ok f ((f + ph0.memsz) % 2 ^ 64) = true)
    (hload : x.loadseg_ok f (ph0.off + (f - ph0.vaddr)) PGSIZE = true) :
    ∀ (n i : Nat) (m : State), i ≤ i0 → i0 < i + n →
      (∀ j, i ≤ j → j < i + n → j ≠ i0 → ∃ ph, ip.ph j = some ph ∧ ¬ segment_contains c ph f) →
      ∃ m', load_segments c x ip f n i m = .returned m' ∧
        m'.loadseg_calls = m.loadseg_calls ++ [(f, ph0.off + (f - ph0.vaddr), PGSIZE)] ∧
        m'.heap_tracker = m.heap_tracker ∧
        m'.resident_heap_pages = m.resident_heap_pages := by
  intro n
  induction n with
  | zero => intro i m h1 h2; omega
  | succ n ih =>
    intro i m h1 h2 hothers
    by_cases hi : i = i0
    · subst hi
      unfold load_segments
      have hcond : ph0.vaddr ≤ f ∧ f < (ph0.vaddr + ph0.memsz) % 2 ^ 64 := by
        rw [Nat.mod_eq_of_lt hwrap]; exact ⟨hc.2.1, hc.2.2⟩
      have hoffs : (ph0.off + (f - ph0.vaddr)) % 2 ^ 64 % 2 ^ 32 = ph0.off + (f - ph0.vaddr) := by
        have h64 : (ph0.off + (f - ph0.vaddr)) % 2 ^ 64 = ph0.off + (f - ph0.vaddr) :=
          Nat.mod_eq_of_lt (by omega)
        rw [h64, Nat.mod_eq_of_lt hoff]
      simp only [h0, hc.1, ne_eq, not_true_eq_false, if_false, hcond, and_self, if_true, hoffs,
        hmap, hload, Bool.true_eq_false]
      rw [load_segments_no_match c x ip f n (i + 1) _
        (fun j hj1 hj2 => hothers j (by omega) (by omega) (by omega))]
      exact ⟨_, rfl, rfl, rfl, rfl⟩
    · obtain ⟨ph, hph, hno⟩ := hothers i (Nat.le_refl _) (by omega) hi
      have hrest := ih (i + 1) m (by omega) (by omega)
        (fun j hj1 hj2 hj3 => hothers j (by omega) (by omega) hj3)
      unfold load_segments
      simp only [hph]
      by_cases ht : ph.type = c.ELF_PROG_LOAD
      · have hcond : ¬ (ph.vaddr ≤ f ∧ f < (ph.vaddr + ph.memsz) % 2 ^ 64) := by
          intro hc'
          have hle : (ph.vaddr + ph.memsz) % 2 ^ 64 ≤ ph.vaddr + ph.memsz := Nat.mod_le _ _
          exact hno ⟨ht, hc'.1, by omega⟩
        simp only [ht, ne_eq, not_true_eq_false, if_false, hcond]
        exact hrest
      · simp only [ne_eq, ht, not_false_eq_true, if_true]
        exact hrest

theorem handler_binary_path (c : Param) (x : World) (stval : Nat) (m : State) (ip : inode)
    (elf : elfhdr) (hheap : ∀ e, e ∈ m.heap_tracker → e.addr ≠ PGROUNDDOWN stval)
    (hip : x.namei = some ip) (helf : ip.elf = some elf) (hmagic : elf.magic = c.ELF_MAGIC) :
    page_fault_handler c x stval m = load_segments c x ip (PGROUNDDOWN stval) elf.phnum 0 m := by
  unfold page_fault_handler
  simp [find_heap_idx_none _ _ hheap, hip, helf, hmagic]

/-- C7 (counterexample): the tracker has no entry at the faulting page
`0x1000`, the executable has a valid ELF header, and neither of its two
program headers is a loadable segment containing `0x1000`; the handler does
not panic: it returns to the process and has issued no load. -/
theorem fault_outside_segments_no_panic :
    (∀ e, e ∈ (initial_state [0x4000, 0x5000]).heap_tracker → e.addr ≠ PGROUNDDOWN 0x1234) ∧
    (∀ ph, ph ∈ [note_segment, data_segment] →
      ¬ segment_contains scenario_param ph (PGROUNDDOWN 0x1234)) ∧
    (page_fault_handler scenario_param
      (image_world scenario_param [note_segment, data_segment]) 0x1234
      (initial_state [0x4000, 0x5000])).is_returned = true ∧
    (page_fault_handler scenario_param
      (image_world scenario_param [note_segment, data_segment]) 0x1234
      (initial_state [0x4000, 0x5000])).loads = some [] := by
  refine ⟨by decide, ?_, by decide, by decide⟩
  simp only [segment_contains]
  decide

/-- C7 (amended): when the tracker has no entry at the page-aligned faulting
address, the executable has a valid ELF header, every program-header read
succeeds and no program header is a loadable segment containing the address,
`page_fault_handler` does not panic: it returns to the process with the state
unchanged (nothing mapped, nothing loaded). -/
theorem fault_outside_segments_returns (c : Param) (x : World) (stval : Nat) (m : State)
    (ip : inode) (elf : elfhdr)
    (hheap : ∀ e, e ∈ m.heap_tracker → e.addr ≠ PGROUNDDOWN stval)
    (hip : x.namei = some ip) (helf : ip.elf = some elf) (hmagic : elf.magic = c.ELF_MAGIC)
    (hph : ∀ i, i < elf.phnum →
      ∃ ph, ip.ph i = some ph ∧ ¬ segment_contains c ph (PGROUNDDOWN stval)) :
    page_fault_handler c x stval m = .returned m := by
  rw [handler_binary_path c x stval m ip elf hheap hip helf hmagic]
  exact load_segments_no_match c x ip _ elf.phnum 0 m (fun j _ hj => hph j (by omega))

/-- C7 (witness): the fault at `0x1234` on the image with a non-loadable header
and a loadable segment elsewhere. -/
theorem fault_outside_segments_returns_witness :
    page_fault_handler scenario_param
      (image_world scenario_param [note_segment, data_segment]) 0x1234
      (initial_state [0x4000, 0x5000]) = .returned (initial_state [0x4000, 0x5000]) :=
  fault_outside_segments_returns scenario_param
    (image_world scenario_param [note_segment, data_segment]) 0x1234
    (initial_state [0x4000, 0x5000]) (image_of scenario_param [note_segment, data_segment])
    { magic := scenario_param.ELF_MAGIC, phoff := 64, phnum := 2 }
    (by decide) rfl rfl rfl
    (by
      intro i hi
      have hi2 : i < 2 := hi
      interval_cases i
      · exact ⟨note_segment, rfl, by simp only [segment_contains]; decide⟩
      · exact ⟨data_segment, rfl, by simp only [segment_contains]; decide⟩)

/-- C9 (counterexample): the only loadable segment containing the faulting
page `0x1000` is `[0x1000, 0x3000)` with file offset `2^32`; the handler
issues one `loadseg` call, and its `uint` offset argument is `0`, not
`off + (f - vaddr) = 2^32`. -/
theorem segment_load_offset_truncated :
    segment_contains scenario_param far_segment (PGROUNDDOWN 0x1000) ∧
    ¬ segment_contains scenario_param note_segment (PGROUNDDOWN 0x1000) ∧
    (page_fault_handler scenario_param
      (image_world scenario_param [note_segment, far_segment]) 0x1000
      (initial_state [0x4000, 0x5000])).loads = some [(0x1000, 0, PGSIZE)] ∧
    (page_fault_handler scenario_param
      (image_world scenario_param [note_segment, far_segment]) 0x1000
      (initial_state [0x4000, 0x5000])).loads
      ≠ some [(PGROUNDDOWN 0x1000,
                far_segment.off + (PGROUNDDOWN 0x1000 - far_segment.vaddr), PGSIZE)] := by
  refine ⟨?_, ?_, by decide, by decide⟩
  · simp only [segment_contains]; decide
  · simp only [segment_contains]; decide

/-- C9 (amended): when the tracker has no entry at the faulting page `f`, the
image lookup and every header read succeed, exactly one program header is a
loadable segment with `vaddr <= f < vaddr + memsz`, that segment has
`vaddr + memsz < 2^64` and `off + (f - vaddr) < 2^32`, and `uvmalloc` and
`loadseg` succeed, `page_fault_handler` returns having issued exactly one
`loadseg` call: at virtual address `f`, of `PGSIZE` bytes, from file offset
`off + (f - vaddr)`. Headers that are not loadable or do not contain `f` cause
no load. -/
theorem segment_fault_loads_one_page (c : Param) (x : World) (stval : Nat) (m : State)
    (ip : inode) (elf : elfhdr) (i0 : Nat) (ph0 : proghdr)
    (hheap : ∀ e, e ∈ m.heap_tracker → e.addr ≠ PGROUNDDOWN stval)
    (hip : x.namei = some ip) (helf : ip.elf = some elf) (hmagic : elf.magic = c.ELF_MAGIC)
    (hi0 : i0 < elf.phnum) (h0 : ip.ph i0 = some ph0)
    (hc : segment_contains c ph0 (PGROUNDDOWN stval))
    (hothers : ∀ j, j < elf.phnum → j ≠ i0 →
      ∃ ph, ip.ph j = some ph ∧ ¬ segment_contains c ph (PGROUNDDOWN stval))
    (hwrap : ph0.vaddr + ph0.memsz < 2 ^ 64)
    (hoff : ph0.off + (PGROUNDDOWN stval - ph0.vaddr) < 2 ^ 32)
    (hmap : x.uvmalloc_ok (PGROUNDDOWN stval) ((PGROUNDDOWN stval + ph0.memsz) % 2 ^ 64) = true)
    (hload : x.loadseg_ok (PGROUNDDOWN stval) (ph0.off + (PGROUNDDOWN stval - ph0.vaddr)) PGSIZE
      = true) :
    ∃ m', page_fault_handler c x stval m = .returned m' ∧
      m'.loadseg_calls = m.loadseg_calls ++
        [(PGROUNDDOWN stval, ph0.off + (PGROUNDDOWN stval - ph0.vaddr), PGSIZE)] := by
  rw [handler_binary_path c x stval m ip elf hheap hip helf hmagic]
  obtain ⟨m', h1, h2, _⟩ := load_segments_one_match c x ip (PGROUNDDOWN stval) i0 ph0 h0 hc hwrap
    hoff hmap hload elf.phnum 0 m (Nat.zero_le _) (by omega)
    (fun j _ hj hne => hothers j (by omega) hne)
  exact ⟨m', h1, h2⟩

/-- C9 (witness): the segment `[0x1000, 0x3000)` with file offset `0x78`,
between a non-loadable header and a loadable segment elsewhere; the fault at
`0x2abc` loads one page at `0x2000` from file offset `0x78 + 0x1000`. -/
theorem segment_fault_loads_one_page_witness :
    ∃ m', page_fault_handler scenario_param
        (image_world scenario_param [note_segment, text_segment, data_segment]) 0x2abc
        (initial_state [0x4000, 0x5000]) = .returned m' ∧
      m'.loadseg_calls = (initial_state [0x4000, 0x5000]).loadseg_calls ++
        [(PGROUNDDOWN 0x2abc, text_segment.off + (PGROUNDDOWN 0x2abc - text_segment.vaddr),
          PGSIZE)] :=
  segment_fault_loads_one_page scenario_param
    (image_world scenario_param [note_segment, text_segment, data_segment]) 0x2abc
    (initial_state [0x4000, 0x5000])
    (image_of scenario_param [note_segment, text_segment, data_segment])
    { magic := scenario_param.ELF_MAGIC, phoff := 64, phnum := 3 } 1 text_segment
    (by decide) rfl rfl rfl (by decide) rfl
    (by simp only [segment_contains]; decide)
    (by
      intro j hj hne
      have hj3 : j < 3 := hj
      interval_cases j
      · exact ⟨note_segment, rfl, by simp only [segment_contains]; decide⟩
      · exact absurd rfl hne
      · exact ⟨data_segment, rfl, by simp only [segment_contains]; decide⟩)
    (by decide) (by decide) rfl rfl

/-- The offset of the scenario: `0x78 + (0x2000 - 0x1000)`. -/
theorem segment_fault_offset_value :
    text_segment.off + (PGROUNDDOWN 0x2abc - text_segment.vaddr) = 0x78 + (0x2000 - 0x1000) := by
  decide

/-- C1 (code evaluated at the failing input): in `state_one_swapped` the
counter invariant holds (two resident pages, `MAXRESHEAP = 2`); the fault that
reloads the swapped-out page `0x4000` returns with `resident_heap_pages = 3`
while one entry has `loaded = true`, so the counter neither equals the number
of loaded entries nor stays within `MAXRESHEAP`. -/
theorem reload_breaks_counter_invariant :
    counter_invariant scenario_param state_one_swapped ∧
    ∃ m', page_fault_handler scenario_param (scenario_world 4) 0x4000 state_one_swapped
        = .returned m' ∧
      m'.resident_heap_pages = 3 ∧
      m'.heap_tracker.countP (fun e => e.loaded) = 1 ∧
      ¬ counter_invariant scenario_param m' := by
  refine ⟨?_, _, rfl, by decide, by decide, ?_⟩
  · unfold counter_invariant; decide
  · unfold counter_invariant; decide

/-- C4 (code evaluated at the scenario): with `MAXRESHEAP = 2` and pages
`A = 0x4000`, `B = 0x5000`, `C = 0x6000`, the faults on `A`, `B`, `C` leave `A`
swapped out to block 33 and `B`, `C` resident with `resident_heap_pages = 2`;
the fourth fault, on `A` again, evicts `B` to block 37 and maps `A`, but leaves
`A` with `loaded = false` and `resident_heap_pages = 3`: the entries with
`loaded = true` are `{C}` only. -/
theorem scenario_reload_marks_page_unloaded :
    (run_faults scenario_param [(1, 0x4000), (2, 0x5000), (3, 0x6000)]
        (initial_state pages_abc)).heap =
      some ([{ addr := 0x4000, last_load_time := 1, startblock := 33, loaded := false },
             { addr := 0x5000, last_load_time := 2, startblock := -1, loaded := true },
             { addr := 0x6000, last_load_time := 3, startblock := -1, loaded := true }], 2) ∧
    (run_faults scenario_param [(1, 0x4000), (2, 0x5000), (3, 0x6000), (4, 0x4000)]
        (initial_state pages_abc)).heap =
      some ([{ addr := 0x4000, last_load_time := 4, startblock := -1, loaded := false },
             { addr := 0x5000, last_load_time := 2, startblock := 37, loaded := false },
             { addr := 0x6000, last_load_time := 3, startblock := -1, loaded := true }], 3) ∧
    (run_faults scenario_param [(1, 0x4000), (2, 0x5000), (3, 0x6000), (4, 0x4000)]
        (initial_state pages_abc)).is_mapped 0x4000 = true := by
  refine ⟨by decide, by decide, by decide⟩

/-- C5 (code evaluated at the failing input): after first-touch faults on five
of six heap pages, every lead block of the scanned range `33, 37, 41` is marked
allocated and block 0 is not; the eviction triggered by the next fault does not
panic: it returns, hands out block number 0 to the victim `0x7000` and marks
bitmap entries 0 to 3 allocated. -/
theorem swap_exhaustion_not_fatal :
    ∃ m5 m', run_faults scenario_param
        [(1, 0x4000), (2, 0x5000), (3, 0x6000), (4, 0x7000), (5, 0x8000)]
        (initial_state pages_six) = .returned m5 ∧
      (∀ k, scenario_param.PSASTART + 4 * k + 3 < scenario_param.PSAEND →
        m5.psa_tracker (scenario_param.PSASTART + 4 * k) = true) ∧
      m5.psa_tracker 0 = false ∧
      m5.resident_heap_pages = (scenario_param.MAXRESHEAP : Int) ∧
      evict_page_to_disk scenario_param (scenario_world 6) m5 = .returned m' ∧
      m'.heap_tracker =
        [{ addr := 0x4000, last_load_time := 1, startblock := 33, loaded := false },
         { addr := 0x5000, last_load_time := 2, startblock := 37, loaded := false },
         { addr := 0x6000, last_load_time := 3, startblock := 41, loaded := false },
         { addr := 0x7000, last_load_time := 4, startblock := 0, loaded := false },
         { addr := 0x8000, last_load_time := 5, startblock := -1, loaded := true },
         fresh_slot 0x9000] ∧
      m'.psa_tracker 0 = true ∧ m'.psa_tracker 1 = true ∧
      m'.psa_tracker 2 = true ∧ m'.psa_tracker 3 = true ∧
      (page_fault_handler scenario_param (scenario_world 6) 0x9000 m5).is_returned = true := by
  refine ⟨_, _, rfl, ?_, by decide, by decide, rfl, by decide, by decide, by decide, by decide,
    by decide, by decide⟩
  intro k hk
  have hk3 : k < 3 := by
    simp only [scenario_param] at hk
    omega
  interval_cases k <;> decide

theorem read_block_write_page (disk : Int → Bytes) (P b : Nat) (kp : Bytes) (i k : Nat)
    (hi : i < 4) (hk : k < 1024) :
    write_page disk P b kp ((P : Int) + (b : Int) + (i : Int)) k = kp (i * 1024 + k) := by
  simp only [write_page, List.range, List.range.loop, List.foldl, write_block, BSIZE]
  have h : i = 0 ∨ i = 1 ∨ i = 2 ∨ i = 3 := by omega
  rcases h with h | h | h | h <;> subst h <;> simp [hk, add_assoc]

theorem read_page_write_page (disk : Int → Bytes) (P b : Nat) (kp k0 : Bytes) (k : Nat)
    (hk : k < PGSIZE) :
    read_page (write_page disk P b kp) P (b : Int) k0 k = kp k := by
  have hP : PGSIZE = 4096 := rfl
  rw [hP] at hk
  have h : k / 1024 = 0 ∨ k / 1024 = 1 ∨ k / 1024 = 2 ∨ k / 1024 = 3 := by omega
  simp only [read_page, List.range, List.range.loop, List.foldl, read_block, BSIZE]
  rcases h with h | h | h | h
  · have h3 : ¬ (3 * 1024 ≤ k ∧ k < 3 * 1024 + 1024) := by omega
    have h2 : ¬ (2 * 1024 ≤ k ∧ k < 2 * 1024 + 1024) := by omega
    have h1 : ¬ (1 * 1024 ≤ k ∧ k < 1 * 1024 + 1024) := by omega
    have h0 : 0 * 1024 ≤ k ∧ k < 0 * 1024 + 1024 := by omega
    simp only [h3, h2, h1, h0, if_false, and_self, if_true]
    exact (read_block_write_page disk P b kp 0 (k - 0 * 1024) (by omega) (by omega)).trans (congrArg kp (by omega))
  · have h3 : ¬ (3 * 1024 ≤ k ∧ k < 3 * 1024 + 1024) := by omega
    have h2 : ¬ (2 * 1024 ≤ k ∧ k < 2 * 1024 + 1024) := by omega
    have h1 : 1 * 1024 ≤ k ∧ k < 1 * 1024 + 1024 := by omega
    simp only [h3, h2, h1, if_false, and_self, if_true]
    exact (read_block_write_page disk P b kp 1 (k - 1 * 1024) (by omega) (by omega)).trans (congrArg kp (by omega))
  · have h3 : ¬ (3 * 1024 ≤ k ∧ k < 3 * 1024 + 1024) := by omega
    have h2 : 2 * 1024 ≤ k ∧ k < 2 * 1024 + 1024 := by omega
    simp only [h3, h2, if_false, and_self, if_true]
    exact (read_block_write_page disk P b kp 2 (k - 2 * 1024) (by omega) (by omega)).trans (congrArg kp (by omega))
  · have h3 : 3 * 1024 ≤ k ∧ k < 3 * 1024 + 1024 := by omega
    simp only [h3, and_self, if_true]
    exact (read_block_write_page disk P b kp 3 (k - 3 * 1024) (by omega) (by omega)).trans (congrArg kp (by omega))

theorem evict_returns (c : Param) (x : World) (m : State) (v : Nat) (e : heap_tracker_t)
    (hv : find_victim m.heap_tracker 0 (-1) UINT64_MAX = (v : Int))
    (he : m.heap_tracker[v]? = some e) :
    ∃ blockno : Nat, evict_page_to_disk c x m = .returned
      { m with
        psa_tracker := mark_allocated m.psa_tracker blockno
        disk := write_page m.disk c.PSASTART blockno (copyin m.pagetable x.kalloc e.addr)
        pagetable := uvmunmap m.pagetable e.addr
        heap_tracker := m.heap_tracker.set v { e with loaded := false, startblock := (blockno : Int) }
        resident_heap_pages := m.resident_heap_pages - 1 } := by
  obtain ⟨⟨blockno, psa⟩, hr⟩ := alloc_psa_block_returns c m.psa_tracker
  have hpsa : psa = mark_allocated m.psa_tracker blockno := by
    unfold alloc_psa_block at hr
    split at hr
    · simp at hr
    · simp only [Option.some.injEq, Prod.mk.injEq] at hr
      rw [← hr.2, hr.1]
  refine ⟨blockno, ?_⟩
  unfold evict_page_to_disk
  simp only [hr, hv, heap_at_natCast, he, Int.toNat_ofNat, hpsa]

theorem handler_reload (c : Param) (x : World) (stval : Nat) (m : State) (v : Nat)
    (e : heap_tracker_t) (he : m.heap_tracker[v]? = some e)
    (ha : e.addr = PGROUNDDOWN stval) (hs : e.startblock ≠ -1)
    (hfirst : ∀ (j : Nat) (e' : heap_tracker_t), j < v → m.heap_tracker[j]? = some e' →
      ¬ (e'.addr = PGROUNDDOWN stval ∧ e'.startblock ≠ -1))
    (hno : m.resident_heap_pages ≠ (c.MAXRESHEAP : Int))
    (hmap : x.uvmalloc_ok (PGROUNDDOWN stval) (PGROUNDDOWN stval + PGSIZE) = true) :
    ∃ m', page_fault_handler c x stval m = .returned m' ∧
      m'.pagetable (PGROUNDDOWN stval) = some (fun k =>
        if k < PGSIZE then read_page m.disk c.PSASTART e.startblock x.kalloc k else 0) ∧
      m'.resident_heap_pages = m.resident_heap_pages + 2 ∧
      m'.psa_tracker = m.psa_tracker ∧ m'.disk = m.disk ∧
      (∃ e', m'.heap_tracker[v]? = some e' ∧ e'.loaded = false ∧ e'.startblock = -1) := by
  have hvl : v < m.heap_tracker.length := (List.getElem?_eq_some.mp he).1
  have hmem : e ∈ m.heap_tracker := List.getElem?_mem he
  -- the first loop finds a swapped entry
  have hfd : load_from_disk (PGROUNDDOWN stval) m.heap_tracker = true := by
    unfold load_from_disk
    rw [List.any_eq_true]
    exact ⟨e, hmem, by simp [ha, hs]⟩
  -- the second loop finds a slot `k` with the faulting address
  have hidx : ∃ (k : Nat) (eh : heap_tracker_t), m.heap_tracker[k]? = some eh ∧
      eh.addr = PGROUNDDOWN stval ∧ find_heap_idx (PGROUNDDOWN stval) m.heap_tracker = (k : Int) := by
    unfold find_heap_idx
    rcases first_index_cases (fun e => decide (e.addr = PGROUNDDOWN stval)) m.heap_tracker 0 with
      ⟨_, hall⟩ | ⟨k, eh, hk, hP, hr, _⟩
    · have := hall e hmem
      simp [ha] at this
    · exact ⟨k, eh, hk, by simpa using hP, by rw [hr]; simp⟩
  obtain ⟨k, eh, hk, hka, hkr⟩ := hidx
  have hkl : k < m.heap_tracker.length := (List.getElem?_eq_some.mp hk).1
  -- the state handed to `retrieve_page_from_disk`
  let m2 : State :=
    { m with
      pagetable := uvmalloc m.pagetable (PGROUNDDOWN stval) (PGROUNDDOWN stval + PGSIZE)
      heap_tracker := m.heap_tracker.set k { eh with loaded := true, last_load_time := x.ticks } }
  have hstep : page_fault_handler c x stval m =
      (retrieve_page_from_disk c x (PGROUNDDOWN stval) m2).bind fun m3 =>
        .returned { m3 with resident_heap_pages := m3.resident_heap_pages + 1 } := by
    unfold page_fault_handler
    have hne : ¬ ((k : Int) = -1) := by omega
    simp only [hkr, hfd, ne_eq, hne, not_false_eq_true, if_true]
    unfold heap_handle
    simp only [hno, if_false, Outcome.bind, hmap, Bool.true_eq_false, heap_at_natCast, hk,
      Int.toNat_ofNat, if_true]
  -- the entry in slot `v` of that state
  obtain ⟨e2, he2, he2a, he2s⟩ : ∃ e2, m2.heap_tracker[v]? = some e2 ∧
      e2.addr = PGROUNDDOWN stval ∧ e2.startblock = e.startblock := by
    by_cases hkv : k = v
    · subst hkv
      refine ⟨{ eh with loaded := true, last_load_time := x.ticks }, ?_, hka, ?_⟩
      · simp [m2, List.getElem?_set, hkl]
      · rw [he] at hk
        simp only [Option.some.injEq] at hk
        rw [hk]
    · refine ⟨e, ?_, ha, rfl⟩
      simp [m2, List.getElem?_set, hkv, he]
  have hfirst2 : ∀ (j : Nat) (e' : heap_tracker_t), j < v → m2.heap_tracker[j]? = some e' →
      ¬ (e'.addr = PGROUNDDOWN stval ∧ e'.startblock ≠ -1) := by
    intro j e' hj hje
    simp only [m2, List.getElem?_set] at hje
    by_cases hkj : k = j
    · subst hkj
      simp only [if_true, hkl] at hje
      simp only [Option.some.injEq] at hje
      rw [← hje]
      exact hfirst k eh hj hk
    · simp only [hkj, if_false] at hje
      exact hfirst j e' hj hje
  have hret := retrieve_serviced c x (PGROUNDDOWN stval) m2 v e2 he2 he2a (by rw [he2s]; exact hs)
    hfirst2
  rw [hstep, hret]
  refine ⟨_, rfl, ?_, ?_, rfl, rfl, ?_⟩
  · simp only [m2, copyout, uvmalloc, he2s]
    simp [PGSIZE]
  · simp only [m2]; omega
  · have hvl2 : v < m2.heap_tracker.length := (List.getElem?_eq_some.mp he2).1
    exact ⟨{ e2 with loaded := false, startblock := -1 }, by simp [List.getElem?_set, hvl],
      rfl, rfl⟩

/-- C3 (counterexample): two slots carry the address `0x4000`; the resident
one (slot 1, content 7 in every byte) is the victim and a swap group is free.
`evict_page_to_disk` swaps it out, the next fault at `0x4000` maps a fresh page
and calls `retrieve_page_from_disk` without another eviction, and the page
mapped afterwards holds 0 in its first byte, not 7: retrieval read the blocks
of slot 0, not the blocks eviction wrote. -/
theorem roundtrip_fails_with_duplicate_address :
    ∃ m1 m2,
      (∃ k, scenario_param.PSASTART + 4 * k + 3 < scenario_param.PSAEND ∧
        state_duplicate_addr.psa_tracker (scenario_param.PSASTART + 4 * k) = false) ∧
      find_victim state_duplicate_addr.heap_tracker 0 (-1) UINT64_MAX = 1 ∧
      (state_duplicate_addr.heap_tracker[1]?).map (fun e => e.addr) = some 0x4000 ∧
      (state_duplicate_addr.pagetable 0x4000).map (fun page => page 0) = some 7 ∧
      evict_page_to_disk scenario_param (scenario_world 3) state_duplicate_addr = .returned m1 ∧
      m1.resident_heap_pages ≠ (scenario_param.MAXRESHEAP : Int) ∧
      page_fault_handler scenario_param (scenario_world 4) 0x4000 m1 = .returned m2 ∧
      (m2.pagetable 0x4000).map (fun page => page 0) = some 0 :=
  ⟨_, _, ⟨1, by decide, by decide⟩, by decide, by decide, by decide, rfl, by decide, rfl,
    by decide⟩

/-- C3 (amended): let slot `v` be the victim `evict_page_to_disk` selects, let
its page be mapped with content `content`, and let no slot before `v` carry the
victim's address together with `startblock != -1`. Then `evict_page_to_disk`
returns with the page unmapped, and when the next fault is at the victim's
address, triggers no eviction and its `uvmalloc` succeeds, `page_fault_handler`
returns with a page mapped at that address whose `PGSIZE` bytes are exactly
those of `content`. This holds whether or not a swap group is free. -/
theorem evict_then_reload_roundtrip (c : Param) (x x' : World) (m : State) (stval v : Nat)
    (e : heap_tracker_t) (content : Bytes)
    (hv : find_victim m.heap_tracker 0 (-1) UINT64_MAX = (v : Int))
    (he : m.heap_tracker[v]? = some e)
    (hc : m.pagetable e.addr = some content)
    (hfirst : ∀ (j : Nat) (e' : heap_tracker_t), j < v → m.heap_tracker[j]? = some e' →
      ¬ (e'.addr = e.addr ∧ e'.startblock ≠ -1))
    (hfault : PGROUNDDOWN stval = e.addr)
    (hno : m.resident_heap_pages - 1 ≠ (c.MAXRESHEAP : Int))
    (hmap : x'.uvmalloc_ok e.addr (e.addr + PGSIZE) = true) :
    ∃ (m1 m2 : State) (page : Bytes),
      evict_page_to_disk c x m = .returned m1 ∧ m1.pagetable e.addr = none ∧
      page_fault_handler c x' stval m1 = .returned m2 ∧
      m2.pagetable e.addr = some page ∧ ∀ k, k < PGSIZE → page k = content k := by
  obtain ⟨blockno, hev⟩ := evict_returns c x m v e hv he
  have hvl : v < m.heap_tracker.length := (List.getElem?_eq_some.mp he).1
  obtain ⟨m2, h2, hpage, _⟩ := handler_reload c x' stval
    { m with
      psa_tracker := mark_allocated m.psa_tracker blockno
      disk := write_page m.disk c.PSASTART blockno (copyin m.pagetable x.kalloc e.addr)
      pagetable := uvmunmap m.pagetable e.addr
      heap_tracker := m.heap_tracker.set v { e with loaded := false, startblock := (blockno : Int) }
      resident_heap_pages := m.resident_heap_pages - 1 }
    v { e with loaded := false, startblock := (blockno : Int) }
    (by simp [List.getElem?_set, hvl]) hfault.symm (by simp only; omega)
    (by
      intro j e' hj hje
      have hjv : ¬ (v = j) := by omega
      simp only [List.getElem?_set, hjv, if_false] at hje
      rw [hfault]
      exact hfirst j e' hj hje)
    hno (by rw [hfault]; exact hmap)
  rw [hfault] at hpage
  refine ⟨_, m2, _, hev, by simp [uvmunmap], h2, hpage, ?_⟩
  intro k hk
  simp only [hk, if_true]
  rw [read_page_write_page _ _ _ _ _ _ hk]
  simp [copyin, hc, hk]

/-- C3 (witness): pages `0x4000` (content 7) and `0x5000` resident with
`MAXRESHEAP = 2`; the victim is slot 0 and the next fault is at `0x4000`. -/
theorem evict_then_reload_roundtrip_witness :
    ∃ (m1 m2 : State) (page : Bytes),
      evict_page_to_disk scenario_param (scenario_world 3) state_two_resident = .returned m1 ∧
      m1.pagetable 0x4000 = none ∧
      page_fault_handler scenario_param (scenario_world 4) 0x4abc m1 = .returned m2 ∧
      m2.pagetable 0x4000 = some page ∧ ∀ k, k < PGSIZE → page k = (fun _ => 7) k :=
  evict_then_reload_roundtrip scenario_param (scenario_world 3) (scenario_world 4)
    state_two_resident 0x4abc 0
    { addr := 0x4000, last_load_time := 1, startblock := -1, loaded := true } (fun _ => 7)
    (by decide) (by decide) rfl (fun j _ hj _ => absurd hj (Nat.not_lt_zero j)) (by decide)
    (by decide) rfl

theorem countP_set_loaded (tr : List heap_tracker_t) (k : Nat) (eh new : heap_tracker_t)
    (hk : tr[k]? = some eh) :
    (tr.set k new).countP (fun e => e.loaded) + (if eh.loaded = true then 1 else 0) =
      tr.countP (fun e => e.loaded) + (if new.loaded = true then 1 else 0) := by
  obtain ⟨hkl, hke⟩ := List.getElem?_eq_some.mp hk
  have h1 := List.countP_set (fun e : heap_tracker_t => e.loaded) tr k new hkl
  have h2 := List.boole_getElem_le_countP (fun e : heap_tracker_t => e.loaded) tr k hkl
  rw [hke] at h1 h2
  omega

/-- The first-touch path keeps the counter invariant: when the invariant holds,
the faulting page is tracked, no entry at its address is resident or swapped
out, `uvmalloc` succeeds and, if the budget is used up, some resident entry has
a `last_load_time` below `0xFFFFFFFFFFFFFFFF`, `page_fault_handler` returns in
a state in which the invariant holds again. -/
theorem first_touch_preserves_counter (c : Param) (x : World) (stval : Nat) (m : State)
    (hinv : counter_invariant c m)
    (hheap : ∃ e, e ∈ m.heap_tracker ∧ e.addr = PGROUNDDOWN stval)
    (hfresh : ∀ e, e ∈ m.heap_tracker → e.addr = PGROUNDDOWN stval →
      e.loaded = false ∧ e.startblock = -1)
    (hvict : m.resident_heap_pages = (c.MAXRESHEAP : Int) →
      ∃ e, e ∈ m.heap_tracker ∧ e.loaded = true ∧ e.last_load_time < UINT64_MAX)
    (hmap : x.uvmalloc_ok (PGROUNDDOWN stval) (PGROUNDDOWN stval + PGSIZE) = true) :
    ∃ m', page_fault_handler c x stval m = .returned m' ∧ counter_invariant c m' := by
  obtain ⟨e0, he0, he0a⟩ := hheap
  have hfd : load_from_disk (PGROUNDDOWN stval) m.heap_tracker = false := by
    unfold load_from_disk
    rw [List.any_eq_false]
    intro e he
    simp only [decide_eq_true_eq]
    intro h
    exact h.2 (hfresh e he h.1).2
  have hidx : ∃ (k : Nat) (eh : heap_tracker_t), m.heap_tracker[k]? = some eh ∧
      eh.addr = PGROUNDDOWN stval ∧ find_heap_idx (PGROUNDDOWN stval) m.heap_tracker = (k : Int) := by
    unfold find_heap_idx
    rcases first_index_cases (fun e => decide (e.addr = PGROUNDDOWN stval)) m.heap_tracker 0 with
      ⟨_, hall⟩ | ⟨k, eh, hk, hP, hr, _⟩
    · have := hall e0 he0
      simp [he0a] at this
    · exact ⟨k, eh, hk, by simpa using hP, by rw [hr]; simp⟩
  obtain ⟨k, eh, hk, hka, hkr⟩ := hidx
  have hkl : k < m.heap_tracker.length := (List.getElem?_eq_some.mp hk).1
  have hehl : eh.loaded = false := (hfresh eh (List.getElem?_mem hk) hka).1
  have hne : ¬ ((k : Int) = -1) := by omega
  unfold counter_invariant at hinv
  obtain ⟨hcnt, hle⟩ := hinv
  unfold page_fault_handler
  simp only [hkr, hfd, ne_eq, hne, not_false_eq_true, if_true]
  unfold heap_handle
  by_cases hres : m.resident_heap_pages = (c.MAXRESHEAP : Int)
  · -- the budget is used up: one page is evicted first
    obtain ⟨el, hel, hell, helt⟩ := hvict hres
    rcases find_victim_spec m.heap_tracker 0 (-1) UINT64_MAX with
      ⟨h1, _⟩ | ⟨v, e, hv, hr, hl, _, _⟩
    · have := h1 el hel hell
      omega
    · have hvr : find_victim m.heap_tracker 0 (-1) UINT64_MAX = (v : Int) := by rw [hr]; simp
      obtain ⟨blockno, hev⟩ := evict_returns c x m v e hvr hv
      have hvl : v < m.heap_tracker.length := (List.getElem?_eq_some.mp hv).1
      have hkv : ¬ (v = k) := by
        intro h
        rw [h, hk] at hv
        simp only [Option.some.injEq] at hv
        rw [hv] at hehl
        rw [hehl] at hl
        exact absurd hl (by simp)
      have hk1 : (m.heap_tracker.set v
          { e with loaded := false, startblock := (blockno : Int) })[k]? = some eh := by
        simp [List.getElem?_set, hkv, hk]
      simp only [hres, if_true, hev, Outcome.bind, hmap, Bool.true_eq_false, if_false,
        heap_at_natCast, hk1, Int.toNat_ofNat]
      refine ⟨_, rfl, ?_⟩
      unfold counter_invariant
      have c1 := countP_set_loaded m.heap_tracker v e
        { e with loaded := false, startblock := (blockno : Int) } hv
      have c2 := countP_set_loaded
        (m.heap_tracker.set v { e with loaded := false, startblock := (blockno : Int) }) k eh
        { eh with loaded := true, last_load_time := x.ticks } hk1
      simp only [hl, hehl, if_true, Bool.false_eq_true, if_false] at c1 c2
      simp only
      constructor <;> omega
  · -- the budget is not used up
    simp only [hres, if_false, Outcome.bind, hmap, Bool.true_eq_false, heap_at_natCast, hk,
      Int.toNat_ofNat]
    refine ⟨_, rfl, ?_⟩
    unfold counter_invariant
    have c2 := countP_set_loaded m.heap_tracker k eh
      { eh with loaded := true, last_load_time := x.ticks } hk
    simp only [hehl, if_true, Bool.false_eq_true, if_false] at c2
    simp only
    constructor <;> omega

/-- The first-touch path at a concrete input: the third fault of the scenario,
on `0x6000`, with `0x4000` and `0x5000` resident and `MAXRESHEAP = 2`. -/
theorem first_touch_preserves_counter_example :
    ∃ m', page_fault_handler scenario_param (scenario_world 3) 0x6000 state_two_resident
        = .returned m' ∧ counter_invariant scenario_param m' :=
  first_touch_preserves_counter scenario_param (scenario_world 3) 0x6000 state_two_resident
    (by unfold counter_invariant; decide) ⟨fresh_slot 0x6000, by decide, by decide⟩
    (by decide)
    (fun _ => ⟨{ addr := 0x4000, last_load_time := 1, startblock := -1, loaded := true },
      by decide, rfl, by decide⟩)
    rfl

theorem mem_set_cases (tr : List heap_tracker_t) (i : Nat) (a e : heap_tracker_t)
    (h : e ∈ tr.set i a) : e = a ∨ ∃ j, j ≠ i ∧ tr[j]? = some e := by
  rcases List.mem_iff_getElem?.mp h with ⟨j, hj⟩
  rw [List.getElem?_set] at hj
  by_cases hij : i = j
  · simp only [hij, if_true] at hj
    split at hj
    · simp only [Option.some.injEq] at hj
      exact Or.inl hj.symm
    · simp at hj
  · simp only [hij, if_false] at hj
    exact Or.inr ⟨j, fun h' => hij h'.symm, hj⟩

theorem getElem?_set_ne_some (tr : List heap_tracker_t) (i j : Nat) (a e : heap_tracker_t)
    (hij : i ≠ j) (h : tr[j]? = some e) : (tr.set i a)[j]? = some e := by
  rw [List.getElem?_set]
  simp only [hij, if_false]
  exact h

theorem getElem?_set_self_some (tr : List heap_tracker_t) (i : Nat) (a e : heap_tracker_t)
    (h : tr[i]? = some e) : (tr.set i a)[i]? = some a := by
  have hlt : i < tr.length := (List.getElem?_eq_some.mp h).1
  simp [List.getElem?_set, hlt]

/-- The eviction step of a heap fault on a non-resident slot `k`: it returns,
keeps the property `no_resident_swapped`, leaves slot `k` and all addresses as
they are, and keeps every swapped-out entry swapped out. -/
theorem evict_phase (c : Param) (x : World) (m : State) (k : Nat) (eh : heap_tracker_t)
    (hinv : no_resident_swapped m)
    (hk : m.heap_tracker[k]? = some eh) (hnl : eh.loaded = false)
    (hvict : ∃ e, e ∈ m.heap_tracker ∧ e.loaded = true ∧ e.last_load_time < UINT64_MAX) :
    ∃ m1, evict_page_to_disk c x m = .returned m1 ∧ no_resident_swapped m1 ∧
      m1.heap_tracker[k]? = some eh ∧
      (∀ (j : Nat) (e1 : heap_tracker_t), m1.heap_tracker[j]? = some e1 →
        ∃ e0, m.heap_tracker[j]? = some e0 ∧ e0.addr = e1.addr) ∧
      (∀ e0, e0 ∈ m.heap_tracker → e0.startblock ≠ -1 → e0 ∈ m1.heap_tracker) := by
  obtain ⟨el, hel, hell, helt⟩ := hvict
  rcases find_victim_spec m.heap_tracker 0 (-1) UINT64_MAX with
    ⟨h1, _⟩ | ⟨v, e, hv, hr, hl, _, _⟩
  · have := h1 el hel hell
    omega
  · have hvr : find_victim m.heap_tracker 0 (-1) UINT64_MAX = (v : Int) := by rw [hr]; simp
    obtain ⟨blockno, hev⟩ := evict_returns c x m v e hvr hv
    have hvk : v ≠ k := by
      intro h
      rw [h, hk] at hv
      simp only [Option.some.injEq] at hv
      rw [hv] at hnl
      rw [hnl] at hl
      exact absurd hl (by simp)
    refine ⟨_, hev, ?_, ?_, ?_, ?_⟩
    · intro e' he' hbad
      rcases mem_set_cases _ _ _ _ he' with h | ⟨j, _, hj⟩
      · rw [h] at hbad
        exact absurd hbad.1 (by simp)
      · exact hinv e' (List.getElem?_mem hj) hbad
    · exact getElem?_set_ne_some _ _ _ _ _ hvk hk
    · intro j e1 hj
      simp only [List.getElem?_set] at hj
      by_cases hvj : v = j
      · simp only [hvj, if_true] at hj
        split at hj
        · simp only [Option.some.injEq] at hj
          exact ⟨e, by rw [← hvj]; exact hv, by rw [← hj]⟩
        · simp at hj
      · simp only [hvj, if_false] at hj
        exact ⟨e1, hj, rfl⟩
    · intro e0 he0 hs
      rcases List.mem_iff_getElem?.mp he0 with ⟨j, hj⟩
      have hjv : v ≠ j := by
        intro h
        rw [← h, hv] at hj
        simp only [Option.some.injEq] at hj
        rw [hj] at hl
        exact hinv e0 he0 ⟨hl, hs⟩
      exact List.getElem?_mem (getElem?_set_ne_some _ _ _ _ _ hjv hj)

/-- The code after the label `heap_handle`, when its eviction step ends in a
state `m1` in which slot `k` is the first slot with the faulting address and
is not resident: the call ends in a state with the property
`no_resident_swapped`, returning when `uvmalloc` succeeds and in the panic of
line 213 otherwise. -/
theorem heap_handle_keeps (c : Param) (x : World) (fa : Nat) (m m1 : State) (k : Nat)
    (eh : heap_tracker_t) (from_disk : Bool)
    (hphase : (if m.resident_heap_pages = (c.MAXRESHEAP : Int) then evict_page_to_disk c x m
      else .returned m) = .returned m1)
    (hinv : no_resident_swapped m1)
    (hk : m1.heap_tracker[k]? = some eh) (hka : eh.addr = fa)
    (hkfirst : ∀ (j : Nat) (e' : heap_tracker_t), j < k → m1.heap_tracker[j]? = some e' →
      e'.addr ≠ fa)
    (hswap : from_disk = true → ∃ e, e ∈ m1.heap_tracker ∧ e.addr = fa ∧ e.startblock ≠ -1)
    (hfresh : from_disk = false → eh.startblock = -1) :
    ∃ m', no_resident_swapped m' ∧
      heap_handle c x fa (k : Int) from_disk m =
        (if x.uvmalloc_ok fa (fa + PGSIZE) = true then .returned m'
         else .panicked "Heap page allocation failed\n" m') := by
  unfold heap_handle
  rw [hphase]
  by_cases hmap : x.uvmalloc_ok fa (fa + PGSIZE) = true
  · simp only [hmap, if_true, Outcome.bind, Bool.true_eq_false, if_false, heap_at_natCast, hk,
      Int.toNat_ofNat]
    cases hfd : from_disk with
    | false =>
      simp only [Bool.false_eq_true, if_false]
      refine ⟨_, ?_, rfl⟩
      intro e' he' hbad
      simp only at he'
      rcases mem_set_cases _ _ _ _ he' with h | ⟨j, _, hj⟩
      · rw [h] at hbad
        exact hbad.2 (hfresh hfd)
      · exact hinv e' (List.getElem?_mem hj) hbad
    | true =>
      simp only [if_true]
      obtain ⟨es, hes, hesa, hess⟩ := hswap hfd
      -- the entry that `retrieve_page_from_disk` services
      have hfound : ∃ (p : Nat) (ep : heap_tracker_t),
          (m1.heap_tracker.set k { eh with loaded := true, last_load_time := x.ticks })[p]?
            = some ep ∧ ep.addr = fa ∧ ep.startblock ≠ -1 ∧
          ∀ (j : Nat) (e' : heap_tracker_t), j < p →
            (m1.heap_tracker.set k { eh with loaded := true, last_load_time := x.ticks })[j]?
              = some e' → ¬ (e'.addr = fa ∧ e'.startblock ≠ -1) := by
        rcases first_index_cases (fun e => decide (e.addr = fa ∧ e.startblock ≠ -1))
          (m1.heap_tracker.set k { eh with loaded := true, last_load_time := x.ticks }) 0 with
          ⟨_, hall⟩ | ⟨p, ep, hp, hP, _, hmin⟩
        · exfalso
          rcases List.mem_iff_getElem?.mp hes with ⟨j, hj⟩
          by_cases hkj : k = j
          · have hself := getElem?_set_self_some m1.heap_tracker k
              { eh with loaded := true, last_load_time := x.ticks } eh hk
            have hq := hall _ (List.getElem?_mem hself)
            rw [← hkj, hk] at hj
            simp only [Option.some.injEq] at hj
            have hq' : ¬ (eh.addr = fa ∧ eh.startblock ≠ -1) := by simpa using hq
            exact hq' ⟨hka, by rw [hj]; exact hess⟩
          · have hother := getElem?_set_ne_some m1.heap_tracker k j
              { eh with loaded := true, last_load_time := x.ticks } es hkj hj
            have hq := hall _ (List.getElem?_mem hother)
            have hq' : ¬ (es.addr = fa ∧ es.startblock ≠ -1) := by simpa using hq
            exact hq' ⟨hesa, hess⟩
        · have hP' : ep.addr = fa ∧ ep.startblock ≠ -1 := by simpa using hP
          exact ⟨p, ep, hp, hP'.1, hP'.2, fun j e' hj hje => by simpa using hmin j e' hj hje⟩
      obtain ⟨p, ep, hp, hpa, hps, hpmin⟩ := hfound
      rw [retrieve_serviced c x fa _ p ep hp hpa hps hpmin]
      refine ⟨_, ?_, rfl⟩
      intro e' he' hbad
      simp only at he'
      rcases mem_set_cases _ _ _ _ he' with h | ⟨j, hjp, hj⟩
      · rw [h] at hbad
        exact absurd hbad.1 (by simp)
      · rw [List.getElem?_set] at hj
        by_cases hkj : k = j
        · -- slot `k` was marked resident; had it been swapped out, it would be slot `p`
          simp only [hkj, if_true] at hj
          split at hj
          · simp only [Option.some.injEq] at hj
            rw [← hj] at hbad
            have hself := getElem?_set_self_some m1.heap_tracker k
              { eh with loaded := true, last_load_time := x.ticks } eh hk
            have hpk : ¬ (k < p) := fun hlt => hpmin k _ hlt hself ⟨hka, hbad.2⟩
            have hkp : ¬ (p < k) := by
              intro hlt
              have hpk' : k ≠ p := by omega
              rw [List.getElem?_set] at hp
              simp only [hpk', if_false] at hp
              exact hkfirst p ep hlt hp hpa
            omega
          · simp at hj
        · simp only [hkj, if_false] at hj
          exact hinv e' (List.getElem?_mem hj) hbad
  · have hmap' : x.uvmalloc_ok fa (fa + PGSIZE) = false := by simpa using hmap
    simp only [hmap', Bool.false_eq_true, if_false, Outcome.bind, if_true]
    exact ⟨m1, hinv, rfl⟩

/-- C12 (counterexample): in `state_max_time_full` no entry is both resident
and swapped, the budget is used up and two entries are resident, and the
faulting page `0x6000` is a non-resident heap entry; the handler calls
`evict_page_to_disk`, whose FIFO loop finds no victim (both timestamps are
`0xFFFFFFFFFFFFFFFF`), and indexes `heap_tracker[-1]`: the call does not end in
a state of the tracker at all. -/
theorem fault_with_max_timestamps_is_undefined :
    no_resident_swapped state_max_time_full ∧
    (state_max_time_full.resident_heap_pages = (scenario_param.MAXRESHEAP : Int) →
      ∃ e, e ∈ state_max_time_full.heap_tracker ∧ e.loaded = true) ∧
    state_max_time_full.heap_tracker[2]? = some (fresh_slot 0x6000) ∧
    (fresh_slot 0x6000).loaded = false ∧
    find_victim state_max_time_full.heap_tracker 0 (-1) UINT64_MAX = -1 ∧
    page_fault_handler scenario_param (scenario_world 3) 0x6000 state_max_time_full
      = .undefined := by
  refine ⟨?_, ?_, by decide, by decide, by decide, rfl⟩
  · unfold no_resident_swapped; decide
  · intro _
    exact ⟨{ addr := 0x4000, last_load_time := 0xFFFFFFFFFFFFFFFF, startblock := -1,
             loaded := true }, by decide, rfl⟩

/-- C12 (amended): let no entry be both resident and swapped, let the fault be
on a heap page whose slot `k` (the first with the faulting address) is not
resident, and let some resident entry have a `last_load_time` below
`0xFFFFFFFFFFFFFFFF` whenever `resident_heap_pages = MAXRESHEAP`. Then
`page_fault_handler`, on a first touch or a reload, with or without eviction,
ends in a state in which again no entry is both resident and swapped: it
returns in that state when `uvmalloc` succeeds and panics in it with "Heap
page allocation failed" otherwise. -/
theorem fault_keeps_no_resident_swapped (c : Param) (x : World) (stval : Nat) (m : State)
    (k : Nat) (eh : heap_tracker_t)
    (hinv : no_resident_swapped m)
    (hk : m.heap_tracker[k]? = some eh) (hka : eh.addr = PGROUNDDOWN stval)
    (hkfirst : ∀ (j : Nat) (e' : heap_tracker_t), j < k → m.heap_tracker[j]? = some e' →
      e'.addr ≠ PGROUNDDOWN stval)
    (hnl : eh.loaded = false)
    (hvict : m.resident_heap_pages = (c.MAXRESHEAP : Int) →
      ∃ e, e ∈ m.heap_tracker ∧ e.loaded = true ∧ e.last_load_time < UINT64_MAX) :
    ∃ m', no_resident_swapped m' ∧
      page_fault_handler c x stval m =
        (if x.uvmalloc_ok (PGROUNDDOWN stval) (PGROUNDDOWN stval + PGSIZE) = true then
          .returned m'
         else .panicked "Heap page allocation failed\n" m') := by
  have hkr : find_heap_idx (PGROUNDDOWN stval) m.heap_tracker = (k : Int) := by
    unfold find_heap_idx
    rw [first_index_found _ m.heap_tracker 0 k eh hk (by simp [hka])
      (fun j e' hj hje => by simpa using hkfirst j e' hj hje)]
    simp
  have hne : ¬ ((k : Int) = -1) := by omega
  have hswap0 : load_from_disk (PGROUNDDOWN stval) m.heap_tracker = true →
      ∃ e, e ∈ m.heap_tracker ∧ e.addr = PGROUNDDOWN stval ∧ e.startblock ≠ -1 := by
    intro h
    unfold load_from_disk at h
    rw [List.any_eq_true] at h
    obtain ⟨e, he, hP⟩ := h
    have hP' : e.addr = PGROUNDDOWN stval ∧ e.startblock ≠ -1 := by simpa using hP
    exact ⟨e, he, hP'.1, hP'.2⟩
  have hfresh : load_from_disk (PGROUNDDOWN stval) m.heap_tracker = false →
      eh.startblock = -1 := by
    intro h
    unfold load_from_disk at h
    rw [List.any_eq_false] at h
    have hq := h eh (List.getElem?_mem hk)
    by_contra hs
    exact hq (by simp [hka, hs])
  unfold page_fault_handler
  simp only [hkr, ne_eq, hne, not_false_eq_true, if_true]
  by_cases hres : m.resident_heap_pages = (c.MAXRESHEAP : Int)
  · obtain ⟨m1, hev, hinv1, hk1, haddr, hkeep⟩ := evict_phase c x m k eh hinv hk hnl (hvict hres)
    refine heap_handle_keeps c x (PGROUNDDOWN stval) m m1 k eh _ (by simp only [hres, if_true, hev])
      hinv1 hk1 hka ?_ ?_ hfresh
    · intro j e' hj hje
      obtain ⟨e0, he0, he0a⟩ := haddr j e' hje
      rw [← he0a]
      exact hkfirst j e0 hj he0
    · intro h
      obtain ⟨e, he, hea, hes⟩ := hswap0 h
      exact ⟨e, hkeep e he hes, hea, hes⟩
  · exact heap_handle_keeps c x (PGROUNDDOWN stval) m m k eh _ (by simp only [hres, if_false])
      hinv hk hka hkfirst hswap0 hfresh

/-- C12 (witness): the reload of the swapped-out page `0x4000` in
`state_one_swapped`, with the budget used up: the fault evicts `0x5000` and
retrieves `0x4000`. -/
theorem fault_keeps_no_resident_swapped_witness :
    no_resident_swapped state_one_swapped ∧
    ∃ m', no_resident_swapped m' ∧
      page_fault_handler scenario_param (scenario_world 4) 0x4000 state_one_swapped =
        (if (scenario_world 4).uvmalloc_ok (PGROUNDDOWN 0x4000) (PGROUNDDOWN 0x4000 + PGSIZE)
            = true then .returned m'
         else .panicked "Heap page allocation failed\n" m') :=
  ⟨by unfold no_resident_swapped; decide,
   fault_keeps_no_resident_swapped scenario_param (scenario_world 4) 0x4000 state_one_swapped 0
    { addr := 0x4000, last_load_time := 1, startblock := 33, loaded := false }
    (by unfold no_resident_swapped; decide) (by decide) (by decide)
    (fun j _ hj _ => absurd hj (Nat.not_lt_zero j)) rfl
    (fun _ => ⟨{ addr := 0x5000, last_load_time := 2, startblock := -1, loaded := true },
      by decide, rfl, by decide⟩)⟩

/-- C11 (code evaluated at the failing input): seven heap pages with pairwise
distinct addresses, a cleared bitmap, `MAXRESHEAP = 2` and a swap area of three
groups. After first-touch faults on all seven pages the handler has returned
each time, and the entries `0x7000` (slot 3) and `0x8000` (slot 4) both have
`startblock = 0`: two distinct swapped-out entries share the block range
`[0, 3]`. -/
theorem exhausted_swap_shares_blocks :
    (initial_state pages_seven).heap_tracker.Pairwise (fun e e' => e.addr ≠ e'.addr) ∧
    (∀ e, e ∈ (initial_state pages_seven).heap_tracker → e.startblock = -1 ∧ e.loaded = false) ∧
    (∀ j, j < 48 → (initial_state pages_seven).psa_tracker j = false) ∧
    (run_faults scenario_param faults_seven (initial_state pages_seven)).heap =
      some ([{ addr := 0x4000, last_load_time := 1, startblock := 33, loaded := false },
             { addr := 0x5000, last_load_time := 2, startblock := 37, loaded := false },
             { addr := 0x6000, last_load_time := 3, startblock := 41, loaded := false },
             { addr := 0x7000, last_load_time := 4, startblock := 0, loaded := false },
             { addr := 0x8000, last_load_time := 5, startblock := 0, loaded := false },
             { addr := 0x9000, last_load_time := 6, startblock := -1, loaded := true },
             { addr := 0xA000, last_load_time := 7, startblock := -1, loaded := true }], 2) ∧
    ∃ m, run_faults scenario_param faults_seven (initial_state pages_seven) = .returned m ∧
      ∃ (ei ej : heap_tracker_t), m.heap_tracker[3]? = some ei ∧ m.heap_tracker[4]? = some ej ∧
        ei.startblock ≠ -1 ∧ ej.startblock ≠ -1 ∧ ei.startblock = ej.startblock := by
  refine ⟨by decide, by decide, by decide, by decide, _, rfl, _, _, rfl, rfl, by decide,
    by decide, by decide⟩

end Pfault

namespace Bootelf

theorem load_addr_recovery (L : Layout) (mem : Nat → Nat)
    (hmagic : read_le mem (L.RECOVERYDISK + L.magic_offset) 4 = L.ELF_MAGIC) :
    find_kernel_load_addr L mem kernel.RECOVERY =
      read_le mem ((L.RAMDISK + read_le mem (L.RECOVERYDISK + L.phoff_offset) 8 +
        read_le mem (L.RECOVERYDISK + L.phentsize_offset) 2) % 2 ^ 64 + L.vaddr_offset) 8 := by
  unfold find_kernel_load_addr
  simp [hmagic]

/-- C13 (code evaluated at the failing input): `memory_a` and `memory_b` agree
on every byte outside the normal kernel image `[RAMDISK, RECOVERYDISK)` and
hold the same recovery image with a valid ELF magic number, whose program
header at offset `phoff + phentsize` has `vaddr = 0x80200000`; yet
`find_kernel_load_addr(RECOVERY)` returns `0x80000000` in one and `0x81000000`
in the other: it reads the program header at `RAMDISK + phoff + phentsize`,
inside the normal image. -/
theorem recovery_load_addr_depends_on_normal_image :
    (∀ a, memory_a a ≠ memory_b a →
      elf64_layout.RAMDISK ≤ a ∧ a < elf64_layout.RECOVERYDISK) ∧
    read_le memory_a (elf64_layout.RECOVERYDISK + elf64_layout.magic_offset) 4
      = elf64_layout.ELF_MAGIC ∧
    read_le memory_b (elf64_layout.RECOVERYDISK + elf64_layout.magic_offset) 4
      = elf64_layout.ELF_MAGIC ∧
    read_le memory_a (elf64_layout.RECOVERYDISK + 64 + 56 + elf64_layout.vaddr_offset) 8
      = 0x80200000 ∧
    read_le memory_b (elf64_layout.RECOVERYDISK + 64 + 56 + elf64_layout.vaddr_offset) 8
      = 0x80200000 ∧
    find_kernel_load_addr elf64_layout memory_a kernel.RECOVERY = 0x80000000 ∧
    find_kernel_load_addr elf64_layout memory_b kernel.RECOVERY = 0x81000000 := by
  refine ⟨?_, by decide, by decide, by decide, by decide, by decide, by decide⟩
  intro a h
  by_cases ha : a = 0x8400008B
  · subst ha; decide
  · exfalso
    apply h
    have hb : (a == 0x8400008B) = false := by
      simpa using ha
    simp [memory_a, memory_b, memory_of, List.lookup, hb]

end Bootelf

namespace Trapemu

theorem uimm_le (instruction : Nat) : uimm instruction ≤ 0xFFF := by
  unfold uimm
  exact Nat.and_le_right

/-- C14 (code evaluated at the failing input): the words `0xFFF01073` (csrw,
`funct3 = 1`) and `0xFFF02073` (csrr, `funct3 = 2`) decode to `uimm = 0xFFF`,
which is not an index of the `0xfff`-element array `vm_reg_map`; in every
machine state `trap_and_emulate` indexes the array with it. Every decoded
`uimm` is at most `0xFFF`, so `0xFFF` is the only index that leaves the array. -/
theorem csr_index_leaves_reg_map :
    uimm 0xFFF01073 = 0xFFF ∧ funct3 0xFFF01073 = 1 ∧
    uimm 0xFFF02073 = 0xFFF ∧ funct3 0xFFF02073 = 2 ∧
    ¬ (uimm 0xFFF01073 < VM_REG_MAP_LEN) ∧
    (∀ (mask : Nat) (m : Machine), trap_and_emulate mask m 0xFFF01073 = .out_of_bounds 0xFFF) ∧
    (∀ (mask : Nat) (m : Machine), trap_and_emulate mask m 0xFFF02073 = .out_of_bounds 0xFFF) ∧
    (∀ instruction : Nat, uimm instruction ≤ 0xFFF) := by
  refine ⟨by decide, by decide, by decide, by decide, by decide, ?_, ?_, uimm_le⟩
  · intro mask m
    have h3 : funct3 0xFFF01073 = 1 := by decide
    have hu : uimm 0xFFF01073 = 0xFFF := by decide
    simp [trap_and_emulate, csrw, reg_at, h3, hu, VM_REG_MAP_LEN]
  · intro mask m
    have h3 : funct3 0xFFF02073 = 2 := by decide
    have hu : uimm 0xFFF02073 = 0xFFF := by decide
    simp [trap_and_emulate, csrr, reg_at, h3, hu, VM_REG_MAP_LEN]

end Trapemu

